import Mathlib

/-!
Verification of the NEXUS-VEIL language front end (`nexus_compiler.py`) and
runtime (`nexus_runtime.py`) against its natural-language specification.

The development is a shallow embedding: each Python function of the two
source files is translated into an executable Lean definition (character
scanning over `List Char`, the recursive-descent parser over an indexed
token list, and the tree-walking evaluator over an explicit environment
heap).  Unbounded recursion in the source (parser loops, `while`
statements, function calls, environment-chain walks) is made total with an
explicit fuel parameter; running out of fuel is reported by a dedicated
result constructor that is never conflated with the source's own errors.
-/

namespace NexusVeil

/-! ## Lexer data model (`nexus_compiler.py`, class `TokenType` / `Token`) -/

inductive TokType where
  | NUMBER | STRING | BOOLEAN | NULL
  | IDENTIFIER | KEYWORD
  | ASSIGN | PLUS | MINUS | MULTIPLY | DIVIDE | MODULO | POWER
  | EQUAL | NOT_EQUAL | LESS_THAN | GREATER_THAN | LESS_EQUAL | GREATER_EQUAL
  | AND | OR | NOT
  | LEFT_PAREN | RIGHT_PAREN | LEFT_BRACE | RIGHT_BRACE
  | LEFT_BRACKET | RIGHT_BRACKET | SEMICOLON | COMMA | DOT | COLON
  | NEWLINE | EOF | ARROW | DOUBLE_ARROW
deriving Repr, DecidableEq

structure Token where
  ttype : TokType
  value : String
  line : Nat
  column : Nat
deriving Repr, DecidableEq

/-- The reserved-word set of `NexusLexer.__init__` (`self.keywords`). -/
def keywords : List String :=
  ["func", "var", "const", "if", "else", "elif", "while", "for", "in",
   "return", "break", "continue", "class", "interface", "struct",
   "enum", "import", "export", "from", "as", "try", "catch", "finally",
   "throw", "async", "await", "yield", "match", "when", "default",
   "true", "false", "null", "and", "or", "not", "is", "typeof",
   "new", "delete", "this", "super", "static", "private", "public",
   "protected", "abstract", "final", "override", "virtual"]

/-- `NexusLexer.advance`: line/column bookkeeping for consuming one character. -/
def advancePos (c : Char) (line col : Nat) : Nat × Nat :=
  if c = '\n' then (line + 1, 1) else (line, col + 1)

/-- Consume one character if any (the guarded body of `NexusLexer.advance`). -/
def adv1 (cs : List Char) (line col : Nat) : List Char × Nat × Nat :=
  match cs with
  | [] => ([], line, col)
  | c :: rest =>
    let (l, co) := advancePos c line col
    (rest, l, co)

/-- `NexusLexer.skip_whitespace`: skip space, tab, carriage return. -/
def skip_whitespace : List Char → Nat → Nat → List Char × Nat × Nat
  | [], line, col => ([], line, col)
  | c :: rest, line, col =>
    if c = ' ' ∨ c = '\t' ∨ c = '\r' then
      let (l, co) := advancePos c line col
      skip_whitespace rest l co
    else (c :: rest, line, col)

/-- `NexusLexer.skip_comment`, line-comment form: consume up to (not including) the newline. -/
def skipLineComment : List Char → Nat → Nat → List Char × Nat × Nat
  | [], line, col => ([], line, col)
  | c :: rest, line, col =>
    if c = '\n' then (c :: rest, line, col)
    else
      let (l, co) := advancePos c line col
      skipLineComment rest l co

/-- `NexusLexer.skip_comment`, block-comment form after the opening `/*`:
consume until a closing asterisk-slash pair, or end of input (tolerated). -/
def skipBlockComment : List Char → Nat → Nat → List Char × Nat × Nat
  | [], line, col => ([], line, col)
  | c :: rest, line, col =>
    if c = '*' ∧ rest.head? = some '/' then
      let (l1, c1) := advancePos c line col
      adv1 rest l1 c1
    else
      let (l, co) := advancePos c line col
      skipBlockComment rest l co

/-- The scanning loop of `NexusLexer.read_number`: a run of digits with at
most one dot; a second dot stops the scan before being consumed.  Returns
the scanned text, the remaining input, and the updated line/column. -/
def readNumberChars : List Char → Bool → Nat → Nat → String × List Char × Nat × Nat
  | [], _, line, col => ("", [], line, col)
  | c :: rest, hasDot, line, col =>
    if c.isDigit ∨ c = '.' then
      if c = '.' ∧ hasDot then ("", c :: rest, line, col)
      else
        let (l1, c1) := advancePos c line col
        let (s, rem, l2, c2) := readNumberChars rest (hasDot || c = '.') l1 c1
        (String.mk (c :: s.data), rem, l2, c2)
    else ("", c :: rest, line, col)

/-- The scanning loop of `NexusLexer.read_string` (after the opening quote):
consume until the closing quote, handling the escapes of the source. -/
def readStringChars : List Char → Char → Nat → Nat → String × List Char × Nat × Nat
  | [], _, line, col => ("", [], line, col)
  | c :: rest, q, line, col =>
    if c = q then ("", c :: rest, line, col)
    else if c = '\\' then
      let (l1, c1) := advancePos c line col
      match rest with
      | [] => ("", [], l1, c1)
      | e :: rest2 =>
        let piece : String :=
          if e = 'n' then "\n"
          else if e = 't' then "\t"
          else if e = 'r' then "\r"
          else if e = '\\' then "\\"
          else if e = q then String.mk [q]
          else String.mk [e]
        let (l2, c2) := advancePos e l1 c1
        let (s, rem, l3, c3) := readStringChars rest2 q l2 c2
        (piece ++ s, rem, l3, c3)
    else
      let (l1, c1) := advancePos c line col
      let (s, rem, l2, c2) := readStringChars rest q l1 c1
      (String.mk (c :: s.data), rem, l2, c2)

/-- The scanning loop of `NexusLexer.read_identifier`: alphanumeric, `_`, `$`. -/
def readIdentChars : List Char → Nat → Nat → String × List Char × Nat × Nat
  | [], line, col => ("", [], line, col)
  | c :: rest, line, col =>
    if c.isAlphanum ∨ c = '_' ∨ c = '$' then
      let (l1, c1) := advancePos c line col
      let (s, rem, l2, c2) := readIdentChars rest l1 c1
      (String.mk (c :: s.data), rem, l2, c2)
    else ("", c :: rest, line, col)

/-- The two-character operator list of `NexusLexer.tokenize`. -/
def twoCharOps : List String :=
  ["==", "!=", "<=", ">=", "=>", "->", "&&", "||", "**", "//", "++", "--"]

/-- The `token_map` of the two-character branch (note: no entry for the
increment/decrement digraphs, which therefore fall through). -/
def twoCharMap : String → Option TokType
  | "==" => some .EQUAL
  | "!=" => some .NOT_EQUAL
  | "<=" => some .LESS_EQUAL
  | ">=" => some .GREATER_EQUAL
  | "=>" => some .ARROW
  | "->" => some .ARROW
  | "&&" => some .AND
  | "||" => some .OR
  | "**" => some .POWER
  | "//" => some .DIVIDE
  | _ => none

/-- The `single_char_map` of `NexusLexer.tokenize`. -/
def singleCharMap : Char → Option TokType
  | '+' => some .PLUS
  | '-' => some .MINUS
  | '*' => some .MULTIPLY
  | '/' => some .DIVIDE
  | '%' => some .MODULO
  | '=' => some .ASSIGN
  | '<' => some .LESS_THAN
  | '>' => some .GREATER_THAN
  | '!' => some .NOT
  | '(' => some .LEFT_PAREN
  | ')' => some .RIGHT_PAREN
  | '{' => some .LEFT_BRACE
  | '}' => some .RIGHT_BRACE
  | '[' => some .LEFT_BRACKET
  | ']' => some .RIGHT_BRACKET
  | ';' => some .SEMICOLON
  | ',' => some .COMMA
  | '.' => some .DOT
  | ':' => some .COLON
  | _ => none

/-- The single-character fallback section at the bottom of the `tokenize`
loop (also reached, with the position already advanced twice, when a
two-character digraph is recognized but absent from `token_map`). -/
def singleCharStep (fuel : Nat) (ch : Char) (cs : List Char) (line col : Nat)
    (acc : List Token)
    (loop : List Char → Nat → Nat → List Token → Option (List Token)) :
    Option (List Token) :=
  match singleCharMap ch with
  | some tt =>
    let (cs1, l1, c1) := adv1 cs line col
    let _ := fuel
    loop cs1 l1 c1 (acc ++ [⟨tt, String.mk [ch], line, col⟩])
  | none =>
    -- unknown character: a warning is printed and the character skipped
    let (cs1, l1, c1) := adv1 cs line col
    loop cs1 l1 c1 acc

/-- `NexusLexer.tokenize`, the main scanning loop.  `none` means the fuel
ran out (the source loop always advances, so enough fuel always exists). -/
def tokenizeLoop : Nat → List Char → Nat → Nat → List Token → Option (List Token)
  | 0, _, _, _, _ => none
  | fuel + 1, cs, line, col, acc =>
    match cs with
    | [] => some (acc ++ [⟨.EOF, "", line, col⟩])
    | _ :: _ =>
      let (cs1, l1, c1) := skip_whitespace cs line col
      match cs1 with
      | [] => some (acc ++ [⟨.EOF, "", l1, c1⟩])
      | ch :: rest =>
        if ch = '#' then
          let (cs2, l2, c2) := skipLineComment (ch :: rest) l1 c1
          tokenizeLoop fuel cs2 l2 c2 acc
        else if ch = '/' ∧ rest.head? = some '/' then
          let (cs2, l2, c2) := skipLineComment (ch :: rest) l1 c1
          tokenizeLoop fuel cs2 l2 c2 acc
        else if ch = '/' ∧ rest.head? = some '*' then
          let (cs2, l2, c2) := adv1 (ch :: rest) l1 c1
          let (cs3, l3, c3) := adv1 cs2 l2 c2
          let (cs4, l4, c4) := skipBlockComment cs3 l3 c3
          tokenizeLoop fuel cs4 l4 c4 acc
        else if ch = '\n' then
          tokenizeLoop fuel rest (l1 + 1) 1 (acc ++ [⟨.NEWLINE, "\n", l1, c1⟩])
        else if ch.isDigit then
          let (s, cs2, l2, c2) := readNumberChars (ch :: rest) false l1 c1
          tokenizeLoop fuel cs2 l2 c2 (acc ++ [⟨.NUMBER, s, l2, c1⟩])
        else if ch = '"' ∨ ch = '\'' then
          let (cs2, l2, c2) := adv1 (ch :: rest) l1 c1
          let (s, cs3, l3, c3) := readStringChars cs2 ch l2 c2
          let (cs4, l4, c4) :=
            if cs3.head? = some ch then adv1 cs3 l3 c3 else (cs3, l3, c3)
          tokenizeLoop fuel cs4 l4 c4 (acc ++ [⟨.STRING, s, l4, c1⟩])
        else if ch.isAlpha ∨ ch = '_' ∨ ch = '$' then
          let (s, cs2, l2, c2) := readIdentChars (ch :: rest) l1 c1
          let tt : TokType := if keywords.contains s then .KEYWORD else .IDENTIFIER
          tokenizeLoop fuel cs2 l2 c2 (acc ++ [⟨tt, s, l2, c1⟩])
        else
          let twoChar : String :=
            String.mk [ch] ++ (match rest.head? with
              | some c2 => String.mk [c2]
              | none => "")
          if twoCharOps.contains twoChar then
            let (cs2, l2, c2) := adv1 (ch :: rest) l1 c1
            let (cs3, l3, c3) := adv1 cs2 l2 c2
            match twoCharMap twoChar with
            | some tt =>
              tokenizeLoop fuel cs3 l3 c3 (acc ++ [⟨tt, twoChar, l3, c1⟩])
            | none =>
              singleCharStep fuel ch cs3 l3 c3 acc (tokenizeLoop fuel)
          else
            singleCharStep fuel ch (ch :: rest) l1 c1 acc (tokenizeLoop fuel)

/-- `NexusLexer.tokenize` applied to a whole source string (line and column
both start at 1, as in `NexusLexer.__init__`). -/
def tokenize (fuel : Nat) (source : String) : Option (List Token) :=
  tokenizeLoop fuel source.data 1 1 []

/-- Projection of a token to its (kind, text) pair, for statements that do
not care about source positions. -/
def tokenTV (t : Token) : TokType × String := (t.ttype, t.value)

/-- Spec-side description of a numeric literal (§4.1 of the spec): the
maximal prefix that is a run of digits with at most one dot, a second dot
terminating the run early.  Stated independently of `readNumberChars` so
the two can be compared. -/
def specNumTake : List Char → Bool → List Char
  | [], _ => []
  | c :: rest, hasDot =>
    if c.isDigit then c :: specNumTake rest hasDot
    else if c = '.' ∧ ¬hasDot then c :: specNumTake rest true
    else []

/-! ## AST (`NexusParser`, dictionary nodes)

The parser's dictionary nodes are embedded as closed inductive types.  A
`Literal` node's `value` field can hold a Python bool, int, float, str or
`None`; floats are modelled as exact rationals (no claim depends on binary
rounding).  The statement type also carries the control-flow kinds that
only the runtime's `execute` knows (they are reachable from deserialized
AST documents, though — as claim C2 states — never from parser output). -/

/-- Exact-rational model of a Python float: a fraction normalized to
lowest terms with the sign in the numerator (so equality is structural).
No claim depends on IEEE rounding, which this model does not perform. -/
structure PyFloat where
  num : Int
  den : Nat
deriving Repr, DecidableEq

/-- The normalized fraction `n / d` (a zero denominator, which no guarded
division here ever passes, is marked by the `⟨0, 0⟩` artifact). -/
def pfMk (n d : Int) : PyFloat :=
  let s : Int := if d < 0 then -1 else 1
  let n1 := s * n
  let d1 := (s * d).toNat
  let g := Nat.gcd n1.natAbs d1
  if g = 0 then ⟨0, 0⟩
  else ⟨Int.tdiv n1 (g : Int), d1 / g⟩

def pfOfInt (n : Int) : PyFloat := ⟨n, 1⟩

def pfAdd (a b : PyFloat) : PyFloat :=
  pfMk (a.num * (b.den : Int) + b.num * (a.den : Int)) ((a.den : Int) * (b.den : Int))

def pfSub (a b : PyFloat) : PyFloat :=
  pfMk (a.num * (b.den : Int) - b.num * (a.den : Int)) ((a.den : Int) * (b.den : Int))

def pfMul (a b : PyFloat) : PyFloat := pfMk (a.num * b.num) ((a.den : Int) * (b.den : Int))

def pfDiv (a b : PyFloat) : PyFloat := pfMk (a.num * (b.den : Int)) ((a.den : Int) * b.num)

def pfNeg (a : PyFloat) : PyFloat := ⟨-a.num, a.den⟩

def pfFloor (a : PyFloat) : Int := Int.fdiv a.num (a.den : Int)

def pfLt (a b : PyFloat) : Bool := decide (a.num * (b.den : Int) < b.num * (a.den : Int))

def pfLe (a b : PyFloat) : Bool := decide (a.num * (b.den : Int) ≤ b.num * (a.den : Int))

def pfIsZero (a : PyFloat) : Bool := decide (a.num = 0)

def pfPowNat (a : PyFloat) (k : Nat) : PyFloat := pfMk (a.num ^ k) ((a.den : Int) ^ k)

/-- `a ^ (-k)` for `k ≥ 0`: invert and raise. -/
def pfPowNegNat (a : PyFloat) (k : Nat) : PyFloat := pfMk ((a.den : Int) ^ k) (a.num ^ k)

inductive Lit where
  | lnull
  | lbool (b : Bool)
  | lint (n : Int)
  | lfloat (q : PyFloat)
  | lstr (s : String)
deriving Repr, DecidableEq

inductive Expr where
  | literal (v : Lit) (raw : String)
  | ident (name : String)
  | binary (left : Expr) (op : String) (right : Expr)
  | unary (op : String) (operand : Expr)
  | assign (left : Expr) (right : Expr)
  | call (callee : Expr) (args : List Expr)
deriving Repr

inductive Stmt where
  | varDecl (name : String) (init : Option Expr)
  | funcDecl (name : String) (params : List String) (body : List Stmt)
  | exprStmt (e : Expr)
  | ifStmt (cond : Expr) (thenB : Stmt) (elseB : Option Stmt)
  | whileStmt (cond : Expr) (body : Stmt)
  | returnStmt (value : Option Expr)
  | breakStmt
  | continueStmt
deriving Repr

/-- The `Program` root node (`NexusParser.parse` return value; the constant
watermark metadata dictionary carries no program information and is not
modelled). -/
structure Program where
  body : List Stmt
deriving Repr

/-! ## Parser (`NexusParser`)

Python exceptions are modelled by an error result that carries the parser
state at the raise point (Python state mutations persist across a raise).
`SyntaxError` comes from `consume`/`parse_primary`; `AttributeError` from
the dispatch in `parse_statement` to the three undefined methods
`parse_if_statement`, `parse_while_statement`, `parse_return_statement`;
`IndexError` from token-list indexing. -/

inductive PErr where
  | synErr (msg : String)
  | attrErr (missingMethod : String)
  | idxErr
deriving Repr, DecidableEq

inductive PRes (α : Type) where
  | ok (a : α)
  | err (e : PErr)
  | nofuel
deriving Repr, DecidableEq

structure PState where
  tokens : List Token
  current : Nat
deriving Repr, DecidableEq

/-- `NexusParser.peek`. -/
def peekT (st : PState) : PRes Token :=
  match st.tokens[st.current]? with
  | some t => .ok t
  | none => .err .idxErr

/-- `NexusParser.previous` (`tokens[current - 1]`; Python index `-1` reads
the last element). -/
def prevT (st : PState) : PRes Token :=
  if st.current = 0 then
    match st.tokens.getLast? with
    | some t => .ok t
    | none => .err .idxErr
  else
    match st.tokens[st.current - 1]? with
    | some t => .ok t
    | none => .err .idxErr

/-- `NexusParser.is_at_end`. -/
def isAtEndT (st : PState) : PRes Bool :=
  match peekT st with
  | .ok t => .ok (t.ttype = .EOF)
  | .err e => .err e
  | .nofuel => .nofuel

/-- `NexusParser.advance`. -/
def advanceT (st : PState) : PRes Token × PState :=
  match isAtEndT st with
  | .ok false =>
    let st' : PState := { st with current := st.current + 1 }
    (prevT st', st')
  | .ok true => (prevT st, st)
  | .err e => (.err e, st)
  | .nofuel => (.nofuel, st)

/-- `NexusParser.check`. -/
def checkT (tt : TokType) (st : PState) : PRes Bool :=
  match isAtEndT st with
  | .ok true => .ok false
  | .ok false =>
    match peekT st with
    | .ok t => .ok (t.ttype = tt)
    | .err e => .err e
    | .nofuel => .nofuel
  | .err e => .err e
  | .nofuel => .nofuel

/-- `NexusParser.match`: try each token type in order, consuming on the
first hit. -/
def matchT : List TokType → PState → PRes Bool × PState
  | [], st => (.ok false, st)
  | tt :: rest, st =>
    match checkT tt st with
    | .ok true =>
      match advanceT st with
      | (.ok _, st') => (.ok true, st')
      | (.err e, st') => (.err e, st')
      | (.nofuel, st') => (.nofuel, st')
    | .ok false => matchT rest st
    | .err e => (.err e, st)
    | .nofuel => (.nofuel, st)

/-- `NexusParser.consume`. -/
def consumeT (tt : TokType) (msg : String) (st : PState) : PRes Token × PState :=
  match checkT tt st with
  | .ok true => advanceT st
  | .ok false =>
    match peekT st with
    | .ok t =>
      (.err (.synErr (msg ++ " at line " ++ toString t.line ++ ", column "
        ++ toString t.column)), st)
    | .err e => (.err e, st)
    | .nofuel => (.nofuel, st)
  | .err e => (.err e, st)
  | .nofuel => (.nofuel, st)

/-- Decimal digits to an integer. -/
def digitsToInt (cs : List Char) : Int :=
  cs.foldl (fun a c => a * 10 + ((c.toNat : Int) - 48)) 0

/-- Python `int` for the digit strings produced by `read_number`. -/
def parseDigitsInt (s : String) : Int := digitsToInt s.data

/-- Split a character list at its first dot, if any. -/
def splitAtDot : List Char → Option (List Char × List Char)
  | [] => none
  | c :: rest =>
    if c = '.' then some ([], rest)
    else (splitAtDot rest).map (fun p => (c :: p.1, p.2))

/-- Python `float` for the digits-and-one-dot strings produced by
`read_number`, as an exact rational. -/
def parseFloatLit (s : String) : PyFloat :=
  match splitAtDot s.data with
  | some (a, b) => pfMk (digitsToInt a * 10 ^ b.length + digitsToInt b) (10 ^ b.length)
  | none => pfOfInt (digitsToInt s.data)

/-- The `Literal` payload built in `parse_primary` for a `NUMBER` token:
`float(value) if '.' in value else int(value)`. -/
def numLitValue (s : String) : Lit :=
  if s.data.contains '.' then .lfloat (parseFloatLit s) else .lint (parseDigitsInt s)

mutual

/-- The statement loop of `NexusParser.parse`: skip newlines, parse
statements, drop the `None` results of failed statements. -/
def parseLoop : Nat → PState → PRes (List Stmt) × PState
  | 0, st => (.nofuel, st)
  | fuel + 1, st =>
    match isAtEndT st with
    | .ok true => (.ok [], st)
    | .ok false =>
      match matchT [.NEWLINE] st with
      | (.ok true, st1) => parseLoop fuel st1
      | (.ok false, st1) =>
        match parse_statement fuel st1 with
        | (.ok (some s), st2) =>
          match parseLoop fuel st2 with
          | (.ok rest, st3) => (.ok (s :: rest), st3)
          | (.err e, st3) => (.err e, st3)
          | (.nofuel, st3) => (.nofuel, st3)
        | (.ok none, st2) => parseLoop fuel st2
        | (.err e, st2) => (.err e, st2)
        | (.nofuel, st2) => (.nofuel, st2)
      | (.err e, st1) => (.err e, st1)
      | (.nofuel, st1) => (.nofuel, st1)
    | .err e => (.err e, st)
    | .nofuel => (.nofuel, st)
termination_by structural fuel _ => fuel

/-- `NexusParser.parse_statement`.  The body dispatches on a leading
keyword; the `try/except` catches every exception, reports it, and returns
`None` (the statement is dropped).  Dispatch on `if`/`while`/`return`
calls a method that does not exist on `NexusParser`, i.e. raises
`AttributeError`, which the same `except` then swallows. -/
def parse_statement : Nat → PState → PRes (Option Stmt) × PState
  | 0, st => (.nofuel, st)
  | fuel + 1, st =>
    let inner : PRes (Option Stmt) × PState :=
      match matchT [.KEYWORD] st with
      | (.ok true, st1) =>
        match prevT st1 with
        | .ok kw =>
          if kw.value = "var" then
            match parse_variable_declaration fuel st1 with
            | (.ok s, st2) => (.ok (some s), st2)
            | (.err e, st2) => (.err e, st2)
            | (.nofuel, st2) => (.nofuel, st2)
          else if kw.value = "func" then
            match parse_function_declaration fuel st1 with
            | (.ok s, st2) => (.ok (some s), st2)
            | (.err e, st2) => (.err e, st2)
            | (.nofuel, st2) => (.nofuel, st2)
          else if kw.value = "if" then (.err (.attrErr "parse_if_statement"), st1)
          else if kw.value = "while" then (.err (.attrErr "parse_while_statement"), st1)
          else if kw.value = "return" then (.err (.attrErr "parse_return_statement"), st1)
          else exprStatementTail fuel st1
        | .err e => (.err e, st1)
        | .nofuel => (.nofuel, st1)
      | (.ok false, st1) => exprStatementTail fuel st1
      | (.err e, st1) => (.err e, st1)
      | (.nofuel, st1) => (.nofuel, st1)
    match inner with
    | (.err _, st') => (.ok none, st')
    | other => other
termination_by structural fuel _ => fuel

/-- The expression-statement tail of `parse_statement` (also reached with
the keyword already consumed when a matched keyword is none of the five
dispatched ones). -/
def exprStatementTail : Nat → PState → PRes (Option Stmt) × PState
  | 0, st => (.nofuel, st)
  | fuel + 1, st =>
    match parse_expression fuel st with
    | (.ok e, st1) =>
      match matchT [.SEMICOLON] st1 with
      | (.ok _, st2) => (.ok (some (.exprStmt e)), st2)
      | (.err e2, st2) => (.err e2, st2)
      | (.nofuel, st2) => (.nofuel, st2)
    | (.err e, st1) => (.err e, st1)
    | (.nofuel, st1) => (.nofuel, st1)

/-- `NexusParser.parse_variable_declaration` (after the `var` keyword). -/
def parse_variable_declaration : Nat → PState → PRes Stmt × PState
  | 0, st => (.nofuel, st)
  | fuel + 1, st =>
    match consumeT .IDENTIFIER "Expected variable name" st with
    | (.ok nameTok, st1) =>
      match matchT [.ASSIGN] st1 with
      | (.ok true, st2) =>
        match parse_expression fuel st2 with
        | (.ok e, st3) =>
          match matchT [.SEMICOLON] st3 with
          | (.ok _, st4) => (.ok (.varDecl nameTok.value (some e)), st4)
          | (.err e2, st4) => (.err e2, st4)
          | (.nofuel, st4) => (.nofuel, st4)
        | (.err e2, st3) => (.err e2, st3)
        | (.nofuel, st3) => (.nofuel, st3)
      | (.ok false, st2) =>
        match matchT [.SEMICOLON] st2 with
        | (.ok _, st3) => (.ok (.varDecl nameTok.value none), st3)
        | (.err e2, st3) => (.err e2, st3)
        | (.nofuel, st3) => (.nofuel, st3)
      | (.err e2, st2) => (.err e2, st2)
      | (.nofuel, st2) => (.nofuel, st2)
    | (.err e2, st1) => (.err e2, st1)
    | (.nofuel, st1) => (.nofuel, st1)

/-- `NexusParser.parse_function_declaration` (after the `func` keyword). -/
def parse_function_declaration : Nat → PState → PRes Stmt × PState
  | 0, st => (.nofuel, st)
  | fuel + 1, st =>
    match consumeT .IDENTIFIER "Expected function name" st with
    | (.ok nameTok, st1) =>
      match consumeT .LEFT_PAREN "Expected ( after function name" st1 with
      | (.ok _, st2) =>
        let afterParams : PRes (List String) × PState :=
          match checkT .RIGHT_PAREN st2 with
          | .ok true => (.ok [], st2)
          | .ok false =>
            match consumeT .IDENTIFIER "Expected parameter name" st2 with
            | (.ok p, st3) =>
              match paramsLoop fuel st3 with
              | (.ok ps, st4) => (.ok (p.value :: ps), st4)
              | (.err e, st4) => (.err e, st4)
              | (.nofuel, st4) => (.nofuel, st4)
            | (.err e, st3) => (.err e, st3)
            | (.nofuel, st3) => (.nofuel, st3)
          | .err e => (.err e, st2)
          | .nofuel => (.nofuel, st2)
        match afterParams with
        | (.ok params, st5) =>
          match consumeT .RIGHT_PAREN "Expected ) after parameters" st5 with
          | (.ok _, st6) =>
            match consumeT .LEFT_BRACE "Expected brace before function body" st6 with
            | (.ok _, st7) =>
              match funcBodyLoop fuel st7 with
              | (.ok body, st8) =>
                match consumeT .RIGHT_BRACE "Expected brace after function body" st8 with
                | (.ok _, st9) => (.ok (.funcDecl nameTok.value params body), st9)
                | (.err e, st9) => (.err e, st9)
                | (.nofuel, st9) => (.nofuel, st9)
              | (.err e, st8) => (.err e, st8)
              | (.nofuel, st8) => (.nofuel, st8)
            | (.err e, st7) => (.err e, st7)
            | (.nofuel, st7) => (.nofuel, st7)
          | (.err e, st6) => (.err e, st6)
          | (.nofuel, st6) => (.nofuel, st6)
        | (.err e, st5) => (.err e, st5)
        | (.nofuel, st5) => (.nofuel, st5)
      | (.err e, st2) => (.err e, st2)
      | (.nofuel, st2) => (.nofuel, st2)
    | (.err e, st1) => (.err e, st1)
    | (.nofuel, st1) => (.nofuel, st1)
termination_by structural fuel _ => fuel

/-- The `while self.match(COMMA)` parameter loop of
`parse_function_declaration`. -/
def paramsLoop : Nat → PState → PRes (List String) × PState
  | 0, st => (.nofuel, st)
  | fuel + 1, st =>
    match matchT [.COMMA] st with
    | (.ok true, st1) =>
      match consumeT .IDENTIFIER "Expected parameter name" st1 with
      | (.ok p, st2) =>
        match paramsLoop fuel st2 with
        | (.ok ps, st3) => (.ok (p.value :: ps), st3)
        | (.err e, st3) => (.err e, st3)
        | (.nofuel, st3) => (.nofuel, st3)
      | (.err e, st2) => (.err e, st2)
      | (.nofuel, st2) => (.nofuel, st2)
    | (.ok false, st1) => (.ok [], st1)
    | (.err e, st1) => (.err e, st1)
    | (.nofuel, st1) => (.nofuel, st1)
termination_by structural fuel _ => fuel

/-- The body loop of `parse_function_declaration`: statements until the
closing brace (or end of input), newlines skipped, failed statements
dropped. -/
def funcBodyLoop : Nat → PState → PRes (List Stmt) × PState
  | 0, st => (.nofuel, st)
  | fuel + 1, st =>
    match checkT .RIGHT_BRACE st with
    | .ok true => (.ok [], st)
    | .ok false =>
      match isAtEndT st with
      | .ok true => (.ok [], st)
      | .ok false =>
        match matchT [.NEWLINE] st with
        | (.ok true, st1) => funcBodyLoop fuel st1
        | (.ok false, st1) =>
          match parse_statement fuel st1 with
          | (.ok (some s), st2) =>
            match funcBodyLoop fuel st2 with
            | (.ok rest, st3) => (.ok (s :: rest), st3)
            | (.err e, st3) => (.err e, st3)
            | (.nofuel, st3) => (.nofuel, st3)
          | (.ok none, st2) => funcBodyLoop fuel st2
          | (.err e, st2) => (.err e, st2)
          | (.nofuel, st2) => (.nofuel, st2)
        | (.err e, st1) => (.err e, st1)
        | (.nofuel, st1) => (.nofuel, st1)
      | .err e => (.err e, st)
      | .nofuel => (.nofuel, st)
    | .err e => (.err e, st)
    | .nofuel => (.nofuel, st)
termination_by structural fuel _ => fuel

/-- `NexusParser.parse_expression`. -/
def parse_expression : Nat → PState → PRes Expr × PState
  | 0, st => (.nofuel, st)
  | fuel + 1, st => parse_assignment fuel st
termination_by structural fuel _ => fuel

/-- `NexusParser.parse_assignment` (right-associative through the
recursive call on its right-hand side). -/
def parse_assignment : Nat → PState → PRes Expr × PState
  | 0, st => (.nofuel, st)
  | fuel + 1, st =>
    match parse_logical_or fuel st with
    | (.ok e, st1) =>
      match matchT [.ASSIGN] st1 with
      | (.ok true, st2) =>
        match parse_assignment fuel st2 with
        | (.ok v, st3) => (.ok (.assign e v), st3)
        | (.err e2, st3) => (.err e2, st3)
        | (.nofuel, st3) => (.nofuel, st3)
      | (.ok false, st2) => (.ok e, st2)
      | (.err e2, st2) => (.err e2, st2)
      | (.nofuel, st2) => (.nofuel, st2)
    | (.err e2, st1) => (.err e2, st1)
    | (.nofuel, st1) => (.nofuel, st1)
termination_by structural fuel _ => fuel

/-- `NexusParser.parse_logical_or`. -/
def parse_logical_or : Nat → PState → PRes Expr × PState
  | 0, st => (.nofuel, st)
  | fuel + 1, st =>
    match parse_logical_and fuel st with
    | (.ok e, st1) => orLoop fuel e st1
    | (.err e2, st1) => (.err e2, st1)
    | (.nofuel, st1) => (.nofuel, st1)
termination_by structural fuel _ => fuel

/-- The `while self.match(OR)` fold of `parse_logical_or`. -/
def orLoop : Nat → Expr → PState → PRes Expr × PState
  | 0, _, st => (.nofuel, st)
  | fuel + 1, e, st =>
    match matchT [.OR] st with
    | (.ok true, st1) =>
      match prevT st1 with
      | .ok opTok =>
        match parse_logical_and fuel st1 with
        | (.ok r, st2) => orLoop fuel (.binary e opTok.value r) st2
        | (.err e2, st2) => (.err e2, st2)
        | (.nofuel, st2) => (.nofuel, st2)
      | .err e2 => (.err e2, st1)
      | .nofuel => (.nofuel, st1)
    | (.ok false, st1) => (.ok e, st1)
    | (.err e2, st1) => (.err e2, st1)
    | (.nofuel, st1) => (.nofuel, st1)
termination_by structural fuel _ _ => fuel

/-- `NexusParser.parse_logical_and`. -/
def parse_logical_and : Nat → PState → PRes Expr × PState
  | 0, st => (.nofuel, st)
  | fuel + 1, st =>
    match parse_equality fuel st with
    | (.ok e, st1) => andLoop fuel e st1
    | (.err e2, st1) => (.err e2, st1)
    | (.nofuel, st1) => (.nofuel, st1)
termination_by structural fuel _ => fuel

/-- The `while self.match(AND)` fold of `parse_logical_and`. -/
def andLoop : Nat → Expr → PState → PRes Expr × PState
  | 0, _, st => (.nofuel, st)
  | fuel + 1, e, st =>
    match matchT [.AND] st with
    | (.ok true, st1) =>
      match prevT st1 with
      | .ok opTok =>
        match parse_equality fuel st1 with
        | (.ok r, st2) => andLoop fuel (.binary e opTok.value r) st2
        | (.err e2, st2) => (.err e2, st2)
        | (.nofuel, st2) => (.nofuel, st2)
      | .err e2 => (.err e2, st1)
      | .nofuel => (.nofuel, st1)
    | (.ok false, st1) => (.ok e, st1)
    | (.err e2, st1) => (.err e2, st1)
    | (.nofuel, st1) => (.nofuel, st1)
termination_by structural fuel _ _ => fuel

/-- `NexusParser.parse_equality`. -/
def parse_equality : Nat → PState → PRes Expr × PState
  | 0, st => (.nofuel, st)
  | fuel + 1, st =>
    match parse_comparison fuel st with
    | (.ok e, st1) => eqLoop fuel e st1
    | (.err e2, st1) => (.err e2, st1)
    | (.nofuel, st1) => (.nofuel, st1)
termination_by structural fuel _ => fuel

/-- The equality-operator fold of `parse_equality`. -/
def eqLoop : Nat → Expr → PState → PRes Expr × PState
  | 0, _, st => (.nofuel, st)
  | fuel + 1, e, st =>
    match matchT [.EQUAL, .NOT_EQUAL] st with
    | (.ok true, st1) =>
      match prevT st1 with
      | .ok opTok =>
        match parse_comparison fuel st1 with
        | (.ok r, st2) => eqLoop fuel (.binary e opTok.value r) st2
        | (.err e2, st2) => (.err e2, st2)
        | (.nofuel, st2) => (.nofuel, st2)
      | .err e2 => (.err e2, st1)
      | .nofuel => (.nofuel, st1)
    | (.ok false, st1) => (.ok e, st1)
    | (.err e2, st1) => (.err e2, st1)
    | (.nofuel, st1) => (.nofuel, st1)
termination_by structural fuel _ _ => fuel

/-- `NexusParser.parse_comparison`. -/
def parse_comparison : Nat → PState → PRes Expr × PState
  | 0, st => (.nofuel, st)
  | fuel + 1, st =>
    match parse_term fuel st with
    | (.ok e, st1) => cmpLoop fuel e st1
    | (.err e2, st1) => (.err e2, st1)
    | (.nofuel, st1) => (.nofuel, st1)
termination_by structural fuel _ => fuel

/-- The comparison-operator fold of `parse_comparison`. -/
def cmpLoop : Nat → Expr → PState → PRes Expr × PState
  | 0, _, st => (.nofuel, st)
  | fuel + 1, e, st =>
    match matchT [.GREATER_THAN, .GREATER_EQUAL, .LESS_THAN, .LESS_EQUAL] st with
    | (.ok true, st1) =>
      match prevT st1 with
      | .ok opTok =>
        match parse_term fuel st1 with
        | (.ok r, st2) => cmpLoop fuel (.binary e opTok.value r) st2
        | (.err e2, st2) => (.err e2, st2)
        | (.nofuel, st2) => (.nofuel, st2)
      | .err e2 => (.err e2, st1)
      | .nofuel => (.nofuel, st1)
    | (.ok false, st1) => (.ok e, st1)
    | (.err e2, st1) => (.err e2, st1)
    | (.nofuel, st1) => (.nofuel, st1)
termination_by structural fuel _ _ => fuel

/-- `NexusParser.parse_term`. -/
def parse_term : Nat → PState → PRes Expr × PState
  | 0, st => (.nofuel, st)
  | fuel + 1, st =>
    match parse_factor fuel st with
    | (.ok e, st1) => termLoop fuel e st1
    | (.err e2, st1) => (.err e2, st1)
    | (.nofuel, st1) => (.nofuel, st1)
termination_by structural fuel _ => fuel

/-- The additive-operator fold of `parse_term`. -/
def termLoop : Nat → Expr → PState → PRes Expr × PState
  | 0, _, st => (.nofuel, st)
  | fuel + 1, e, st =>
    match matchT [.MINUS, .PLUS] st with
    | (.ok true, st1) =>
      match prevT st1 with
      | .ok opTok =>
        match parse_factor fuel st1 with
        | (.ok r, st2) => termLoop fuel (.binary e opTok.value r) st2
        | (.err e2, st2) => (.err e2, st2)
        | (.nofuel, st2) => (.nofuel, st2)
      | .err e2 => (.err e2, st1)
      | .nofuel => (.nofuel, st1)
    | (.ok false, st1) => (.ok e, st1)
    | (.err e2, st1) => (.err e2, st1)
    | (.nofuel, st1) => (.nofuel, st1)
termination_by structural fuel _ _ => fuel

/-- `NexusParser.parse_factor`. -/
def parse_factor : Nat → PState → PRes Expr × PState
  | 0, st => (.nofuel, st)
  | fuel + 1, st =>
    match parse_unary fuel st with
    | (.ok e, st1) => factorLoop fuel e st1
    | (.err e2, st1) => (.err e2, st1)
    | (.nofuel, st1) => (.nofuel, st1)
termination_by structural fuel _ => fuel

/-- The multiplicative-operator fold of `parse_factor`. -/
def factorLoop : Nat → Expr → PState → PRes Expr × PState
  | 0, _, st => (.nofuel, st)
  | fuel + 1, e, st =>
    match matchT [.DIVIDE, .MULTIPLY, .MODULO] st with
    | (.ok true, st1) =>
      match prevT st1 with
      | .ok opTok =>
        match parse_unary fuel st1 with
        | (.ok r, st2) => factorLoop fuel (.binary e opTok.value r) st2
        | (.err e2, st2) => (.err e2, st2)
        | (.nofuel, st2) => (.nofuel, st2)
      | .err e2 => (.err e2, st1)
      | .nofuel => (.nofuel, st1)
    | (.ok false, st1) => (.ok e, st1)
    | (.err e2, st1) => (.err e2, st1)
    | (.nofuel, st1) => (.nofuel, st1)
termination_by structural fuel _ _ => fuel

/-- `NexusParser.parse_unary`. -/
def parse_unary : Nat → PState → PRes Expr × PState
  | 0, st => (.nofuel, st)
  | fuel + 1, st =>
    match matchT [.NOT, .MINUS] st with
    | (.ok true, st1) =>
      match prevT st1 with
      | .ok opTok =>
        match parse_unary fuel st1 with
        | (.ok r, st2) => (.ok (.unary opTok.value r), st2)
        | (.err e2, st2) => (.err e2, st2)
        | (.nofuel, st2) => (.nofuel, st2)
      | .err e2 => (.err e2, st1)
      | .nofuel => (.nofuel, st1)
    | (.ok false, st1) => parse_primary fuel st1
    | (.err e2, st1) => (.err e2, st1)
    | (.nofuel, st1) => (.nofuel, st1)
termination_by structural fuel _ => fuel

/-- `NexusParser.parse_primary`.  Note the keyword branch: a matched
keyword other than `true`/`false`/`null` is consumed and control falls
through to the literal/identifier/paren branches on the next token. -/
def parse_primary : Nat → PState → PRes Expr × PState
  | 0, st => (.nofuel, st)
  | fuel + 1, st =>
    match matchT [.KEYWORD] st with
    | (.ok true, st1) =>
      match prevT st1 with
      | .ok kw =>
        if kw.value = "true" ∨ kw.value = "false" then
          (.ok (.literal (.lbool (kw.value = "true")) kw.value), st1)
        else if kw.value = "null" then
          (.ok (.literal .lnull "null"), st1)
        else primaryRest fuel st1
      | .err e2 => (.err e2, st1)
      | .nofuel => (.nofuel, st1)
    | (.ok false, st1) => primaryRest fuel st1
    | (.err e2, st1) => (.err e2, st1)
    | (.nofuel, st1) => (.nofuel, st1)
termination_by structural fuel _ => fuel

/-- The number/string/identifier/parenthesis branches of `parse_primary`,
ending in its `Unexpected token` syntax error. -/
def primaryRest : Nat → PState → PRes Expr × PState
  | 0, st => (.nofuel, st)
  | fuel + 1, st =>
    match matchT [.NUMBER] st with
    | (.ok true, st1) =>
      match prevT st1 with
      | .ok t => (.ok (.literal (numLitValue t.value) t.value), st1)
      | .err e2 => (.err e2, st1)
      | .nofuel => (.nofuel, st1)
    | (.ok false, st1) =>
      match matchT [.STRING] st1 with
      | (.ok true, st2) =>
        match prevT st2 with
        | .ok t => (.ok (.literal (.lstr t.value) ("\"" ++ t.value ++ "\"")), st2)
        | .err e2 => (.err e2, st2)
        | .nofuel => (.nofuel, st2)
      | (.ok false, st2) =>
        match matchT [.IDENTIFIER] st2 with
        | (.ok true, st3) =>
          match prevT st3 with
          | .ok t => (.ok (.ident t.value), st3)
          | .err e2 => (.err e2, st3)
          | .nofuel => (.nofuel, st3)
        | (.ok false, st3) =>
          match matchT [.LEFT_PAREN] st3 with
          | (.ok true, st4) =>
            match parse_expression fuel st4 with
            | (.ok e, st5) =>
              match consumeT .RIGHT_PAREN "Expected ) after expression" st5 with
              | (.ok _, st6) => (.ok e, st6)
              | (.err e2, st6) => (.err e2, st6)
              | (.nofuel, st6) => (.nofuel, st6)
            | (.err e2, st5) => (.err e2, st5)
            | (.nofuel, st5) => (.nofuel, st5)
          | (.ok false, st4) =>
            match peekT st4 with
            | .ok t =>
              (.err (.synErr ("Unexpected token " ++ t.value ++ " at line "
                ++ toString t.line)), st4)
            | .err e2 => (.err e2, st4)
            | .nofuel => (.nofuel, st4)
          | (.err e2, st4) => (.err e2, st4)
          | (.nofuel, st4) => (.nofuel, st4)
        | (.err e2, st3) => (.err e2, st3)
        | (.nofuel, st3) => (.nofuel, st3)
      | (.err e2, st2) => (.err e2, st2)
      | (.nofuel, st2) => (.nofuel, st2)
    | (.err e2, st1) => (.err e2, st1)
    | (.nofuel, st1) => (.nofuel, st1)
termination_by structural fuel _ => fuel

end

/-- `NexusParser.parse`: run the statement loop and wrap the collected
statements in the `Program` node. -/
def parse (fuel : Nat) (st : PState) : PRes Program × PState :=
  match parseLoop fuel st with
  | (.ok stmts, st') => (.ok ⟨stmts⟩, st')
  | (.err e, st') => (.err e, st')
  | (.nofuel, st') => (.nofuel, st')

/-! ## Runtime value model (`nexus_runtime.py`, class `NexusValue`)

A `NexusValue` pairs a host value with a type-name tag.  The host values
that can reach a `NexusValue.value` slot in this program are Python
`None`, `bool`, `int`, `float`, `str`, `list`, `NexusFunction`, a built-in
callable, or (through the built-in call path that re-wraps an already
wrapped result) another `NexusValue`.  Floats are modelled as exact
rationals; a `NexusFunction` is its name, parameter list, body and the
heap index of its captured closure environment; a nested `NexusValue` is
flattened into the `hnexus` constructor carrying the inner host value and
inner tag. -/

inductive HVal where
  | hnone
  | hbool (b : Bool)
  | hint (n : Int)
  | hfloat (q : PyFloat)
  | hstr (s : String)
  | hlist (elems : List HVal)
  | hfunc (name : String) (params : List String) (body : List Stmt) (closure : Nat)
  | hbuiltin (name : String)
  | hnexus (inner : HVal) (innerTag : String)
deriving Repr

structure NexusValue where
  value : HVal
  type_name : String
deriving Repr

def nullValue : NexusValue := ⟨.hnone, "null"⟩

/-- `NexusValue.is_truthy`. -/
def truthy : HVal → Bool
  | .hnone => false
  | .hbool b => b
  | .hint n => decide (n ≠ 0)
  | .hfloat q => !pfIsZero q
  | .hstr s => decide (s ≠ "")
  | .hlist l => !l.isEmpty
  | .hfunc _ _ _ _ => true
  | .hbuiltin _ => true
  | .hnexus _ _ => true

/-- Decimal rendering of a float value, matching Python `str` on the
integral and terminating-decimal floats this runtime can actually print
(a float arising from a non-terminating binary expansion would be
rendered by Python as the shortest round-tripping decimal of the nearest
IEEE double, which an exact-rational model cannot express; that case is
marked with a fraction rendering and is unreachable in the claims). -/
def floatStr (q : PyFloat) : String :=
  if q.den = 1 then toString q.num ++ ".0"
  else
    match (List.range 17).find? (fun k => decide ((10 ^ (k + 1) * q.num.natAbs) % q.den = 0)) with
    | some k =>
      let places := k + 1
      let scaled : Nat := 10 ^ places * q.num.natAbs / q.den
      let ds := toString scaled
      let ds := if ds.length < places + 1 then
          String.mk (List.replicate (places + 1 - ds.length) '0') ++ ds
        else ds
      (if q.num < 0 then "-" else "")
        ++ ds.take (ds.length - places) ++ "." ++ ds.drop (ds.length - places)
    | none => toString q.num ++ "/" ++ toString q.den

mutual

/-- Python `str` of a host value (`NexusValue.__str__` delegates to it for
the wrapped case; `NexusFunction.__str__` gives the function case).  The
built-in function case elides the memory address Python would print. -/
def pyStr : HVal → String
  | .hnone => "None"
  | .hbool true => "True"
  | .hbool false => "False"
  | .hint n => toString n
  | .hfloat q => floatStr q
  | .hstr s => s
  | .hlist l => "[" ++ pyStrElems l ++ "]"
  | .hfunc name _ _ _ => "<function " ++ name ++ ">"
  | .hbuiltin name => "<built-in function " ++ name ++ ">"
  | .hnexus v _ => pyStr v

/-- Comma-separated list elements (Python renders list elements with
`repr`). -/
def pyStrElems : List HVal → String
  | [] => ""
  | [x] => pyReprAtom x
  | x :: y :: rest => pyReprAtom x ++ ", " ++ pyStrElems (y :: rest)

/-- Python `repr` of a host value, as used for list elements: strings gain
quotes, a wrapped value renders through `NexusValue.__repr__`, and the
remaining kinds repr like their str form (the function case, like the
built-in case of `pyStr`, elides the default object-at-address text). -/
def pyReprAtom : HVal → String
  | .hnone => "None"
  | .hbool true => "True"
  | .hbool false => "False"
  | .hint n => toString n
  | .hfloat q => floatStr q
  | .hstr s => "\u0027" ++ s ++ "\u0027"
  | .hlist l => "[" ++ pyStrElems l ++ "]"
  | .hfunc _ _ _ _ => "<NexusFunction object>"
  | .hbuiltin name => "<built-in function " ++ name ++ ">"
  | .hnexus v t => "NexusValue(" ++ pyStr v ++ ", " ++ t ++ ")"

end

/-! ## Environments (`NexusEnvironment`)

Python environments are mutable objects linked by `parent` references;
they are modelled as records in a heap (`List EnvRec`) addressed by index,
with `parent` an optional index.  Every environment the interpreter
allocates has a parent that already existed, so parent indices strictly
decrease and chain walks need at most `heap.length` steps; the walk
functions carry explicit fuel and report exhaustion (which on the heaps
this interpreter builds never happens) as `nofuel`. -/

structure EnvRec where
  parent : Option Nat
  vars : List (String × NexusValue)
deriving Repr

abbrev Heap := List EnvRec

/-- Python dict assignment `self.variables[name] = value`: update the
existing key in place, else append (insertion order preserved). -/
def setVar : List (String × NexusValue) → String → NexusValue → List (String × NexusValue)
  | [], name, v => [(name, v)]
  | (k, w) :: rest, name, v =>
    if k = name then (k, v) :: rest else (k, w) :: setVar rest name v

/-- Python dict lookup. -/
def lookupVar : List (String × NexusValue) → String → Option NexusValue
  | [], _ => none
  | (k, w) :: rest, name => if k = name then some w else lookupVar rest name

/-- `NexusEnvironment.define`. -/
def envDefine (heap : Heap) (envId : Nat) (name : String) (v : NexusValue) : Heap :=
  match heap[envId]? with
  | some e => heap.set envId { e with vars := setVar e.vars name v }
  | none => heap

inductive RunErr where
  | nameError (msg : String)
  | typeError (msg : String)
  | zeroDivisionError (msg : String)
  | valueError (msg : String)
  | eofError
deriving Repr, DecidableEq

/-- Result of a runtime step: a value, a raised Python error, one of the
three control-flow exceptions (`ReturnValue`, `BreakException`,
`ContinueException`), or fuel exhaustion (a modelling artifact, distinct
from everything the source can produce). -/
inductive Res (α : Type) where
  | ok (a : α)
  | err (e : RunErr)
  | raiseRet (v : NexusValue)
  | brk
  | cont
  | nofuel
deriving Repr

/-- `NexusEnvironment.get`: walk the parent chain outward. -/
def envGet : Nat → Heap → Nat → String → Res NexusValue
  | 0, _, _, _ => .nofuel
  | fuel + 1, heap, envId, name =>
    match heap[envId]? with
    | some e =>
      match lookupVar e.vars name with
      | some v => .ok v
      | none =>
        match e.parent with
        | some p => envGet fuel heap p name
        | none => .err (.nameError ("Undefined variable " ++ name))
    | none => .err (.nameError ("Undefined variable " ++ name))

/-- `NexusEnvironment.assign`: store into the nearest scope already
defining the name, else recurse on the parent, else `NameError`. -/
def envAssign : Nat → Heap → Nat → String → NexusValue → Res Heap
  | 0, _, _, _, _ => .nofuel
  | fuel + 1, heap, envId, name, v =>
    match heap[envId]? with
    | some e =>
      if (lookupVar e.vars name).isSome then
        .ok (heap.set envId { e with vars := setVar e.vars name v })
      else
        match e.parent with
        | some p => envAssign fuel heap p name v
        | none => .err (.nameError ("Undefined variable " ++ name))
    | none => .err (.nameError ("Undefined variable " ++ name))

/-- `NexusEnvironment.has`. -/
def envHas : Nat → Heap → Nat → String → Res Bool
  | 0, _, _, _ => .nofuel
  | fuel + 1, heap, envId, name =>
    match heap[envId]? with
    | some e =>
      if (lookupVar e.vars name).isSome then .ok true
      else
        match e.parent with
        | some p => envHas fuel heap p name
        | none => .ok false
    | none => .ok false

/-! ## Host-level operator semantics

Python's operators over the concrete value repertoire of this runtime.
`bool` participates in arithmetic as 0/1 (it is an `int` subclass);
`int op float` promotes to float; `/` is true division.  Operands outside
an operator's domain raise `TypeError`, exactly as the host would. -/

/-- Numeric view of a host value: its rational magnitude and whether it is
a float (`bool` counts as the integers 0/1). -/
def toNumQ : HVal → Option (PyFloat × Bool)
  | .hbool b => some (pfOfInt (if b then 1 else 0), false)
  | .hint n => some (pfOfInt n, false)
  | .hfloat q => some (q, true)
  | _ => none

/-- Python `== 0`, the divisor test of the `/` branch. -/
def isZeroVal (v : HVal) : Bool :=
  match toNumQ v with
  | some (x, _) => pfIsZero x
  | none => false

/-- Rebuild a numeric result: float if either operand was a float. -/
def numOut (x : PyFloat) (isFloat : Bool) : HVal :=
  if isFloat then .hfloat x else .hint x.num

/-- Python `+` over host values (`left.value + right.value`). -/
def hostAdd : HVal → HVal → Res HVal
  | .hstr a, .hstr b => .ok (.hstr (a ++ b))
  | .hlist a, .hlist b => .ok (.hlist (a ++ b))
  | a, b =>
    match toNumQ a, toNumQ b with
    | some (x, fx), some (y, fy) => .ok (numOut (pfAdd x y) (fx || fy))
    | _, _ => .err (.typeError "unsupported operand type(s) for +")

/-- Python `-` over host values. -/
def hostSub (a b : HVal) : Res HVal :=
  match toNumQ a, toNumQ b with
  | some (x, fx), some (y, fy) => .ok (numOut (pfSub x y) (fx || fy))
  | _, _ => .err (.typeError "unsupported operand type(s) for -")

/-- Python sequence repetition (`str * int`, `list * int`). -/
def seqRepeat {α : Type} (l : List α) (n : Int) : List α :=
  (List.replicate n.toNat l).flatten

/-- Python `*` over host values. -/
def hostMul : HVal → HVal → Res HVal
  | .hstr s, .hint n => .ok (.hstr (String.mk (seqRepeat s.data n)))
  | .hstr s, .hbool b => .ok (.hstr (String.mk (seqRepeat s.data (if b then 1 else 0))))
  | .hint n, .hstr s => .ok (.hstr (String.mk (seqRepeat s.data n)))
  | .hbool b, .hstr s => .ok (.hstr (String.mk (seqRepeat s.data (if b then 1 else 0))))
  | .hlist l, .hint n => .ok (.hlist (seqRepeat l n))
  | .hint n, .hlist l => .ok (.hlist (seqRepeat l n))
  | a, b =>
    match toNumQ a, toNumQ b with
    | some (x, fx), some (y, fy) => .ok (numOut (pfMul x y) (fx || fy))
    | _, _ => .err (.typeError "unsupported operand type(s) for *")

/-- Python `/` (true division; the caller has already excluded a zero
divisor through `isZeroVal`). -/
def hostDiv (a b : HVal) : Res HVal :=
  match toNumQ a, toNumQ b with
  | some (x, _), some (y, _) => .ok (.hfloat (pfDiv x y))
  | _, _ => .err (.typeError "unsupported operand type(s) for /")

/-- Python `%` (floor-style remainder, sign of the divisor; a zero divisor
raises `ZeroDivisionError` from the host since the source has no explicit
check on this branch). -/
def hostMod (a b : HVal) : Res HVal :=
  match toNumQ a, toNumQ b with
  | some (x, fx), some (y, fy) =>
    if pfIsZero y then .err (.zeroDivisionError "integer division or modulo by zero")
    else .ok (numOut (pfSub x (pfMul y (pfOfInt (pfFloor (pfDiv x y))))) (fx || fy))
  | _, _ => .err (.typeError "unsupported operand type(s) for %")

/-- Python `**` with an integral exponent (a fractional exponent needs
real-number powers, outside this exact-rational model and outside every
claim). -/
def hostPow (a b : HVal) : Res HVal :=
  match toNumQ a, toNumQ b with
  | some (x, fx), some (y, fy) =>
    if y.den = 1 then
      if 0 ≤ y.num then .ok (numOut (pfPowNat x y.num.toNat) (fx || fy))
      else if pfIsZero x then
        .err (.zeroDivisionError "zero cannot be raised to a negative power")
      else .ok (.hfloat (pfPowNegNat x (-y.num).toNat))
    else .err (.typeError "fractional exponent outside model")
  | _, _ => .err (.typeError "unsupported operand type(s) for **")

mutual

/-- Python `==` over host values.  Function objects and wrapped
`NexusValue` results compare by object identity in Python; identity is
approximated structurally (the only way the language can put the same
object on both sides is to read it from the same binding, where the two
sides are structurally identical). -/
def hostEq : HVal → HVal → Bool
  | a, b =>
    match toNumQ a, toNumQ b with
    | some (x, _), some (y, _) => decide (x = y)
    | _, _ =>
      match a, b with
      | .hstr s, .hstr t => decide (s = t)
      | .hnone, .hnone => true
      | .hlist l1, .hlist l2 => hostEqList l1 l2
      | .hbuiltin n1, .hbuiltin n2 => decide (n1 = n2)
      | .hfunc n1 p1 _ c1, .hfunc n2 p2 _ c2 =>
        decide (n1 = n2) && decide (p1 = p2) && decide (c1 = c2)
      | .hnexus v1 t1, .hnexus v2 t2 => hostEq v1 v2 && decide (t1 = t2)
      | _, _ => false

def hostEqList : List HVal → List HVal → Bool
  | [], [] => true
  | a :: as2, b :: bs2 => hostEq a b && hostEqList as2 bs2
  | _, _ => false

end

/-- Python `<` over host values (numeric and string orderings; any other
combination raises `TypeError`). -/
def hostLt (a b : HVal) : Res Bool :=
  match toNumQ a, toNumQ b with
  | some (x, _), some (y, _) => .ok (pfLt x y)
  | _, _ =>
    match a, b with
    | .hstr s, .hstr t => .ok (decide (s < t))
    | _, _ => .err (.typeError "unsupported comparison")

/-- Python `<=` over host values. -/
def hostLe (a b : HVal) : Res Bool :=
  match toNumQ a, toNumQ b with
  | some (x, _), some (y, _) => .ok (pfLe x y)
  | _, _ =>
    match a, b with
    | .hstr s, .hstr t => .ok (decide (s ≤ t))
    | _, _ => .err (.typeError "unsupported comparison")

/-- The operator dispatch of `NexusInterpreter.evaluate_binary_expression`
after both operands have been evaluated. -/
def applyBinary (op : String) (left right : NexusValue) : Res NexusValue :=
  if op = "+" then
    if left.type_name = "string" ∨ right.type_name = "string" then
      .ok ⟨.hstr (pyStr left.value ++ pyStr right.value), "string"⟩
    else
      match hostAdd left.value right.value with
      | .ok v => .ok ⟨v, "number"⟩
      | .err e => .err e
      | _ => .err (.typeError "unreachable")
  else if op = "-" then
    match hostSub left.value right.value with
    | .ok v => .ok ⟨v, "number"⟩
    | .err e => .err e
    | _ => .err (.typeError "unreachable")
  else if op = "*" then
    match hostMul left.value right.value with
    | .ok v => .ok ⟨v, "number"⟩
    | .err e => .err e
    | _ => .err (.typeError "unreachable")
  else if op = "/" then
    if isZeroVal right.value then .err (.zeroDivisionError "Division by zero")
    else
      match hostDiv left.value right.value with
      | .ok v => .ok ⟨v, "number"⟩
      | .err e => .err e
      | _ => .err (.typeError "unreachable")
  else if op = "%" then
    match hostMod left.value right.value with
    | .ok v => .ok ⟨v, "number"⟩
    | .err e => .err e
    | _ => .err (.typeError "unreachable")
  else if op = "**" then
    match hostPow left.value right.value with
    | .ok v => .ok ⟨v, "number"⟩
    | .err e => .err e
    | _ => .err (.typeError "unreachable")
  else if op = "==" then .ok ⟨.hbool (hostEq left.value right.value), "boolean"⟩
  else if op = "!=" then .ok ⟨.hbool (!hostEq left.value right.value), "boolean"⟩
  else if op = "<" then
    match hostLt left.value right.value with
    | .ok b => .ok ⟨.hbool b, "boolean"⟩
    | .err e => .err e
    | _ => .err (.typeError "unreachable")
  else if op = "<=" then
    match hostLe left.value right.value with
    | .ok b => .ok ⟨.hbool b, "boolean"⟩
    | .err e => .err e
    | _ => .err (.typeError "unreachable")
  else if op = ">" then
    match hostLt right.value left.value with
    | .ok b => .ok ⟨.hbool b, "boolean"⟩
    | .err e => .err e
    | _ => .err (.typeError "unreachable")
  else if op = ">=" then
    match hostLe right.value left.value with
    | .ok b => .ok ⟨.hbool b, "boolean"⟩
    | .err e => .err e
    | _ => .err (.typeError "unreachable")
  else if op = "and" ∨ op = "&&" then
    .ok ⟨.hbool (truthy left.value && truthy right.value), "boolean"⟩
  else if op = "or" ∨ op = "||" then
    .ok ⟨.hbool (truthy left.value || truthy right.value), "boolean"⟩
  else .err (.valueError ("Unknown binary operator: " ++ op))

/-- `NexusInterpreter.evaluate_unary_expression` after operand evaluation. -/
def applyUnary (op : String) (v : NexusValue) : Res NexusValue :=
  if op = "-" then
    match toNumQ v.value with
    | some (x, fx) => .ok ⟨numOut (pfNeg x) fx, "number"⟩
    | none => .err (.typeError "bad operand type for unary -")
  else if op = "not" ∨ op = "!" then .ok ⟨.hbool (!truthy v.value), "boolean"⟩
  else .err (.valueError ("Unknown unary operator: " ++ op))

/-- `NexusInterpreter.evaluate_literal` (the `isinstance` ladder, bool
checked before int/float as in the source). -/
def evalLiteral : Lit → NexusValue
  | .lbool b => ⟨.hbool b, "boolean"⟩
  | .lint n => ⟨.hint n, "number"⟩
  | .lfloat q => ⟨.hfloat q, "number"⟩
  | .lstr s => ⟨.hstr s, "string"⟩
  | .lnull => ⟨.hnone, "null"⟩

/-- Python `str.strip` whitespace trimming over characters. -/
def stripChars (cs : List Char) : List Char :=
  ((cs.dropWhile Char.isWhitespace).reverse.dropWhile Char.isWhitespace).reverse

/-- Python `int(str)` for the strings `builtin_num` may see. -/
def pyParseInt (s : String) : Option Int :=
  let signAndDigits : Int × List Char :=
    match stripChars s.data with
    | '-' :: rest => (-1, rest)
    | '+' :: rest => (1, rest)
    | l => (1, l)
  let ds := signAndDigits.2
  if ds ≠ [] ∧ ds.all Char.isDigit then
    some (signAndDigits.1 * digitsToInt ds)
  else none

/-- Python `float(str)` for plain decimal strings (scientific notation is
outside the model and outside every claim). -/
def pyParseFloat (s : String) : Option PyFloat :=
  let signAndBody : Int × List Char :=
    match stripChars s.data with
    | '-' :: rest => (-1, rest)
    | '+' :: rest => (1, rest)
    | l => (1, l)
  match splitAtDot signAndBody.2 with
  | some (a, b) =>
    if (a.all Char.isDigit) ∧ (b.all Char.isDigit) ∧ (a ≠ [] ∨ b ≠ []) then
      some (pfMk (signAndBody.1 * (digitsToInt a * 10 ^ b.length + digitsToInt b))
        (10 ^ b.length))
    else none
  | none =>
    if signAndBody.2 ≠ [] ∧ signAndBody.2.all Char.isDigit then
      some (pfOfInt (signAndBody.1 * digitsToInt signAndBody.2))
    else none

/-- `builtin_num` conversion of a single argument. -/
def numConv (a : NexusValue) : Res NexusValue :=
  match a.value with
  | .hstr s =>
    if s.data.contains '.' then
      match pyParseFloat s with
      | some q => .ok ⟨.hfloat q, "number"⟩
      | none => .err (.valueError ("Cannot convert " ++ pyStr a.value ++ " to number"))
    else
      match pyParseInt s with
      | some n => .ok ⟨.hint n, "number"⟩
      | none => .err (.valueError ("Cannot convert " ++ pyStr a.value ++ " to number"))
  | v =>
    match toNumQ v with
    | some (x, _) => .ok ⟨.hfloat x, "number"⟩
    | none => .err (.valueError ("Cannot convert " ++ pyStr v ++ " to number"))

/-- Interpreter state: the environment heap plus the console (output lines
written by `print`/`input` prompts, and the remaining stdin lines). -/
structure RState where
  heap : Heap
  output : List String
  inputLines : List String
deriving Repr

/-- The six built-in functions registered by
`NexusInterpreter._define_builtins`, dispatched by name. -/
def applyBuiltin (name : String) (args : List NexusValue) (st : RState) :
    Res NexusValue × RState :=
  if name = "print" then
    let out := String.intercalate " " (args.map (fun a => pyStr a.value))
    (.ok ⟨.hnone, "null"⟩, { st with output := st.output ++ [out] })
  else if name = "input" then
    let prompt := match args.head? with
      | some a => pyStr a.value
      | none => ""
    match st.inputLines with
    | line :: rest =>
      (.ok ⟨.hstr line, "string"⟩,
        { st with output := st.output ++ [prompt], inputLines := rest })
    | [] => (.err .eofError, { st with output := st.output ++ [prompt] })
  else if name = "len" then
    match args.head? with
    | none => (.err (.valueError "len() requires at least 1 argument"), st)
    | some a =>
      match a.value with
      | .hstr s => (.ok ⟨.hint s.length, "number"⟩, st)
      | .hlist l => (.ok ⟨.hint l.length, "number"⟩, st)
      | _ => (.err (.typeError ("len() not supported for " ++ a.type_name)), st)
  else if name = "type" then
    match args.head? with
    | none => (.err (.valueError "type() requires at least 1 argument"), st)
    | some a => (.ok ⟨.hstr a.type_name, "string"⟩, st)
  else if name = "str" then
    match args.head? with
    | none => (.ok ⟨.hstr "", "string"⟩, st)
    | some a => (.ok ⟨.hstr (pyStr a.value), "string"⟩, st)
  else if name = "num" then
    match args.head? with
    | none => (.ok ⟨.hint 0, "number"⟩, st)
    | some a => (numConv a, st)
  else (.err (.typeError "object is not callable"), st)

/-- The parameter-binding loop of `NexusFunction.call`: bind each
parameter positionally, null for a missing trailing argument; arguments
beyond the parameter count are never consumed. -/
def bindLoop : Heap → Nat → List String → List NexusValue → Heap
  | heap, _, [], _ => heap
  | heap, envId, p :: ps, args =>
    bindLoop (envDefine heap envId p (args.headD nullValue)) envId ps (args.drop 1)

mutual

/-- `NexusInterpreter.evaluate`. -/
def evaluate : Nat → Nat → RState → Expr → Res NexusValue × RState
  | 0, _, st, _ => (.nofuel, st)
  | fuel + 1, env, st, node =>
    match node with
    | .literal v _ => (.ok (evalLiteral v), st)
    | .ident name =>
      (envGet (st.heap.length + 1) st.heap env name, st)
    | .binary l op r =>
      match evaluate fuel env st l with
      | (.ok lv, st1) =>
        match evaluate fuel env st1 r with
        | (.ok rv, st2) => (applyBinary op lv rv, st2)
        | (other, st2) => (other, st2)
      | (other, st1) => (other, st1)
    | .unary op operand =>
      match evaluate fuel env st operand with
      | (.ok v, st1) => (applyUnary op v, st1)
      | (other, st1) => (other, st1)
    | .assign lhs rhs =>
      match evaluate fuel env st rhs with
      | (.ok v, st1) =>
        match lhs with
        | .ident name =>
          match envAssign (st1.heap.length + 1) st1.heap env name v with
          | .ok heap2 => (.ok v, { st1 with heap := heap2 })
          | .err e => (.err e, st1)
          | _ => (.nofuel, st1)
        | _ => (.err (.valueError "Invalid assignment target"), st1)
      | (other, st1) => (other, st1)
    | .call calleeE argEs =>
      match evaluate fuel env st calleeE with
      | (.ok callee, st1) =>
        match evalArgs fuel env st1 argEs with
        | (.ok args, st2) =>
          if callee.type_name = "function" then
            match callee.value with
            | .hfunc _ params body closure => funcCall fuel params body closure args st2
            | _ => (.err (.typeError "object has no attribute call"), st2)
          else if callee.type_name = "builtin_function" then
            match callee.value with
            | .hbuiltin bname =>
              match applyBuiltin bname args st2 with
              | (.ok r, st3) => (.ok ⟨.hnexus r.value r.type_name, "null"⟩, st3)
              | (other, st3) => (other, st3)
            | _ => (.err (.typeError "object is not callable"), st2)
          else
            (.err (.typeError (callee.type_name ++ " object is not callable")), st2)
        | (.err e, st2) => (.err e, st2)
        | (.raiseRet v, st2) => (.raiseRet v, st2)
        | (.brk, st2) => (.brk, st2)
        | (.cont, st2) => (.cont, st2)
        | (.nofuel, st2) => (.nofuel, st2)
      | (other, st1) => (other, st1)
termination_by structural fuel _ _ _ => fuel

/-- The argument loop of `evaluate_call_expression`. -/
def evalArgs : Nat → Nat → RState → List Expr → Res (List NexusValue) × RState
  | 0, _, st, _ => (.nofuel, st)
  | _fuel + 1, _, st, [] => (.ok [], st)
  | fuel + 1, env, st, e :: rest =>
    match evaluate fuel env st e with
    | (.ok v, st1) =>
      match evalArgs fuel env st1 rest with
      | (.ok vs, st2) => (.ok (v :: vs), st2)
      | (other, st2) => (other, st2)
    | (.err er, st1) => (.err er, st1)
    | (.raiseRet v, st1) => (.raiseRet v, st1)
    | (.brk, st1) => (.brk, st1)
    | (.cont, st1) => (.cont, st1)
    | (.nofuel, st1) => (.nofuel, st1)
termination_by structural fuel _ _ _ => fuel

/-- `NexusInterpreter.execute`: a statement's result is `None` except for
an expression statement (its value) and an `if` statement (its executed
branch's result). -/
def execute : Nat → Nat → RState → Stmt → Res (Option NexusValue) × RState
  | 0, _, st, _ => (.nofuel, st)
  | fuel + 1, env, st, node =>
    match node with
    | .varDecl name init =>
      match init with
      | some e =>
        match evaluate fuel env st e with
        | (.ok v, st1) => (.ok none, { st1 with heap := envDefine st1.heap env name v })
        | (.err er, st1) => (.err er, st1)
        | (.raiseRet v, st1) => (.raiseRet v, st1)
        | (.brk, st1) => (.brk, st1)
        | (.cont, st1) => (.cont, st1)
        | (.nofuel, st1) => (.nofuel, st1)
      | none => (.ok none, { st with heap := envDefine st.heap env name nullValue })
    | .funcDecl name params body =>
      (.ok none,
        { st with heap := envDefine st.heap env name ⟨.hfunc name params body env, "function"⟩ })
    | .exprStmt e =>
      match evaluate fuel env st e with
      | (.ok v, st1) => (.ok (some v), st1)
      | (.err er, st1) => (.err er, st1)
      | (.raiseRet v, st1) => (.raiseRet v, st1)
      | (.brk, st1) => (.brk, st1)
      | (.cont, st1) => (.cont, st1)
      | (.nofuel, st1) => (.nofuel, st1)
    | .ifStmt cond thenB elseB =>
      match evaluate fuel env st cond with
      | (.ok c, st1) =>
        if truthy c.value then execute fuel env st1 thenB
        else
          match elseB with
          | some eb => execute fuel env st1 eb
          | none => (.ok none, st1)
      | (.err er, st1) => (.err er, st1)
      | (.raiseRet v, st1) => (.raiseRet v, st1)
      | (.brk, st1) => (.brk, st1)
      | (.cont, st1) => (.cont, st1)
      | (.nofuel, st1) => (.nofuel, st1)
    | .whileStmt cond body => whileLoop fuel env st cond body
    | .returnStmt value =>
      match value with
      | some e =>
        match evaluate fuel env st e with
        | (.ok v, st1) => (.raiseRet v, st1)
        | (.err er, st1) => (.err er, st1)
        | (.raiseRet v, st1) => (.raiseRet v, st1)
        | (.brk, st1) => (.brk, st1)
        | (.cont, st1) => (.cont, st1)
        | (.nofuel, st1) => (.nofuel, st1)
      | none => (.raiseRet nullValue, st)
    | .breakStmt => (.brk, st)
    | .continueStmt => (.cont, st)
termination_by structural fuel _ _ _ => fuel

/-- The body loop of `NexusFunction.call` (results discarded; raised
exceptions propagate). -/
def execBody : Nat → Nat → RState → List Stmt → Res Unit × RState
  | 0, _, st, _ => (.nofuel, st)
  | _fuel + 1, _, st, [] => (.ok (), st)
  | fuel + 1, env, st, s :: rest =>
    match execute fuel env st s with
    | (.ok _, st1) => execBody fuel env st1 rest
    | (.err er, st1) => (.err er, st1)
    | (.raiseRet v, st1) => (.raiseRet v, st1)
    | (.brk, st1) => (.brk, st1)
    | (.cont, st1) => (.cont, st1)
    | (.nofuel, st1) => (.nofuel, st1)
termination_by structural fuel _ _ _ => fuel

/-- `NexusFunction.call`: allocate a child of the captured closure
environment, bind parameters, run the body; `ReturnValue` is caught here,
everything else propagates; normal completion yields null. -/
def funcCall : Nat → List String → List Stmt → Nat → List NexusValue → RState →
    Res NexusValue × RState
  | 0, _, _, _, _, st => (.nofuel, st)
  | fuel + 1, params, body, closure, args, st =>
    let newId := st.heap.length
    let heap1 := st.heap ++ [⟨some closure, []⟩]
    let heap2 := bindLoop heap1 newId params args
    match execBody fuel newId { st with heap := heap2 } body with
    | (.ok _, st1) => (.ok nullValue, st1)
    | (.raiseRet v, st1) => (.ok v, st1)
    | (.err er, st1) => (.err er, st1)
    | (.brk, st1) => (.brk, st1)
    | (.cont, st1) => (.cont, st1)
    | (.nofuel, st1) => (.nofuel, st1)
termination_by structural fuel _ _ _ _ _ => fuel

/-- `NexusInterpreter.execute_while_statement`: re-check the condition,
run the body, `continue` re-checks, `break` exits with `None`; the
redundant outer `except BreakException` of the source is the condition
branch for a break signal (unreachable). -/
def whileLoop : Nat → Nat → RState → Expr → Stmt → Res (Option NexusValue) × RState
  | 0, _, st, _, _ => (.nofuel, st)
  | fuel + 1, env, st, cond, body =>
    match evaluate fuel env st cond with
    | (.ok c, st1) =>
      if truthy c.value then
        match execute fuel env st1 body with
        | (.ok _, st2) => whileLoop fuel env st2 cond body
        | (.cont, st2) => whileLoop fuel env st2 cond body
        | (.brk, st2) => (.ok none, st2)
        | (.err er, st2) => (.err er, st2)
        | (.raiseRet v, st2) => (.raiseRet v, st2)
        | (.nofuel, st2) => (.nofuel, st2)
      else (.ok none, st1)
    | (.brk, st1) => (.ok none, st1)
    | (.err er, st1) => (.err er, st1)
    | (.raiseRet v, st1) => (.raiseRet v, st1)
    | (.cont, st1) => (.cont, st1)
    | (.nofuel, st1) => (.nofuel, st1)
termination_by structural fuel _ _ _ _ => fuel

end

/-- The statement loop of `NexusInterpreter.interpret` with the `result`
variable made explicit: `result` holds the previous `execute` result and
is overwritten by each statement; the loop ends returning it. -/
def execStmtsFrom (fuel env : Nat) : RState → Option NexusValue → List Stmt →
    Res (Option NexusValue) × RState
  | st, result, [] => (.ok result, st)
  | st, _, s :: rest =>
    match execute fuel env st s with
    | (.ok v, st1) => execStmtsFrom fuel env st1 v rest
    | (other, st1) => (other, st1)

/-- The statement loop of `NexusInterpreter.interpret` (`result` starts as
`None`). -/
def execStmts (fuel env : Nat) (st : RState) (body : List Stmt) :
    Res (Option NexusValue) × RState :=
  execStmtsFrom fuel env st none body

/-- The global environment built by `NexusInterpreter.__init__` /
`_define_builtins`, in registration order. -/
def initHeap : Heap :=
  [⟨none,
    [("print", ⟨.hbuiltin "print", "builtin_function"⟩),
     ("input", ⟨.hbuiltin "input", "builtin_function"⟩),
     ("len", ⟨.hbuiltin "len", "builtin_function"⟩),
     ("type", ⟨.hbuiltin "type", "builtin_function"⟩),
     ("str", ⟨.hbuiltin "str", "builtin_function"⟩),
     ("num", ⟨.hbuiltin "num", "builtin_function"⟩)]⟩]

/-- A fresh interpreter state (empty console, no stdin). -/
def initState : RState := ⟨initHeap, [], []⟩

/-- `NexusInterpreter.interpret`: run the statements against a fresh
global environment; any escaping exception (runtime error, or a
control-flow signal reaching the top, `ReturnValue` included — all are
`Exception` subclasses) is caught, reported, and turned into a `None`
result.  Fuel exhaustion stays distinct. -/
def interpret (fuel : Nat) (prog : Program) : Res (Option NexusValue) × RState :=
  match execStmts fuel 0 initState prog.body with
  | (.ok r, st) => (.ok r, st)
  | (.nofuel, st) => (.nofuel, st)
  | (_, st) => (.ok none, st)

/-! ## Spec-side reference definitions and statement helpers -/

/-- Does scope `j` of the heap itself define `name`? -/
def scopeDefines (heap : Heap) (j : Nat) (name : String) : Bool :=
  match heap[j]? with
  | some e => (lookupVar e.vars name).isSome
  | none => false

/-- The environment chain seen from scope `envId`, outermost last (an
index without a heap record, impossible in the interpreter's heaps, ends
the chain).  `none` means the fuel ran out. -/
def envChain : Nat → Heap → Nat → Option (List Nat)
  | 0, _, _ => none
  | fuel + 1, heap, envId =>
    match heap[envId]? with
    | some e =>
      match e.parent with
      | some p => (envChain fuel heap p).map (fun l => envId :: l)
      | none => some [envId]
    | none => some [envId]

/-- Spec-side lookup (§3 of the spec): walk the chain outward and return
the binding of the nearest scope that defines the name. -/
def specLookup (heap : Heap) : List Nat → String → Option NexusValue
  | [], _ => none
  | j :: rest, name =>
    match heap[j]? with
    | some e =>
      match lookupVar e.vars name with
      | some w => some w
      | none => specLookup heap rest name
    | none => specLookup heap rest name

/-- Spec-side nearest defining scope along a chain. -/
def specNearest (heap : Heap) (ids : List Nat) (name : String) : Option Nat :=
  ids.find? (fun j => scopeDefines heap j name)

/-- Overwrite `name` in scope `j` (the successful-assignment effect). -/
def updateHeapAt (heap : Heap) (j : Nat) (name : String) (v : NexusValue) : Heap :=
  match heap[j]? with
  | some e => heap.set j { e with vars := setVar e.vars name v }
  | none => heap

/-- The binding-name skeleton of a heap: which names each scope defines,
in insertion order. -/
def keysOf (heap : Heap) : List (List String) :=
  heap.map (fun e => e.vars.map Prod.fst)

/-- Spec-side positional parameter binding (§4.4 of the spec): each
parameter in order, paired with its argument, null when the arguments run
out; leftover arguments unused. -/
def bindSpec : List String → List NexusValue → List (String × NexusValue)
  | [], _ => []
  | p :: ps, args => (p, args.headD nullValue) :: bindSpec ps (args.drop 1)

/-- Outcome translation of `NexusFunction.call` around its body run:
normal completion yields null, a caught `ReturnValue` yields its payload,
anything else propagates. -/
def callOutcome : Res Unit × RState → Res NexusValue × RState
  | (.ok _, st) => (.ok nullValue, st)
  | (.raiseRet v, st) => (.ok v, st)
  | (.err e, st) => (.err e, st)
  | (.brk, st) => (.brk, st)
  | (.cont, st) => (.cont, st)
  | (.nofuel, st) => (.nofuel, st)

/-- The wrapping `evaluate_call_expression` applies around a built-in
call: a returned `NexusValue` is re-wrapped as the host value of a new
`NexusValue` whose type tag is `"null"`; raised errors propagate. -/
def wrapBuiltinOutcome : Res NexusValue × RState → Res NexusValue × RState
  | (.ok r, st) => (.ok ⟨.hnexus r.value r.type_name, "null"⟩, st)
  | (.err e, st) => (.err e, st)
  | (.raiseRet v, st) => (.raiseRet v, st)
  | (.brk, st) => (.brk, st)
  | (.cont, st) => (.cont, st)
  | (.nofuel, st) => (.nofuel, st)

/-- Sequencing helper for `execStmts`: continue with `f` after a normal
result, propagate anything else. -/
def seqThen (r : Res (Option NexusValue) × RState)
    (f : RState → Res (Option NexusValue) × RState) : Res (Option NexusValue) × RState :=
  match r with
  | (.ok _, st) => f st
  | (.err e, st) => (.err e, st)
  | (.raiseRet v, st) => (.raiseRet v, st)
  | (.brk, st) => (.brk, st)
  | (.cont, st) => (.cont, st)
  | (.nofuel, st) => (.nofuel, st)

mutual

/-- The statement kinds the parser can actually emit (claim C2): variable
declarations, function declarations whose bodies again satisfy the
predicate, and expression statements over `goodExprB` expressions. -/
def goodStmtB : Stmt → Bool
  | .varDecl _ none => true
  | .varDecl _ (some e) => goodExprB e
  | .funcDecl _ _ body => goodStmtListB body
  | .exprStmt e => goodExprB e
  | .ifStmt _ _ _ => false
  | .whileStmt _ _ => false
  | .returnStmt _ => false
  | .breakStmt => false
  | .continueStmt => false

def goodStmtListB : List Stmt → Bool
  | [] => true
  | s :: rest => goodStmtB s && goodStmtListB rest

/-- The expression kinds the parser can actually emit: literals,
identifiers, binary, unary and assignment expressions — never a call. -/
def goodExprB : Expr → Bool
  | .literal _ _ => true
  | .ident _ => true
  | .binary l _ r => goodExprB l && goodExprB r
  | .unary _ e => goodExprB e
  | .assign l r => goodExprB l && goodExprB r
  | .call _ _ => false

end

/-- The token sequence of the one-character source `;` (a statement that
`parse_statement` rejects without consuming a token). -/
def semiState : PState :=
  ⟨[⟨.SEMICOLON, ";", 1, 1⟩, ⟨.EOF, "", 1, 2⟩], 0⟩

/-- The `parse_primary` diagnostic for that token. -/
def semiMsg : String := "Unexpected token ; at line 1"

/-- A two-scope heap for concrete environment checks: the outer scope 0
defines `x`, the inner scope 1 (child of 0) defines `y`. -/
def heapW : Heap :=
  [⟨none, [("x", ⟨.hint 1, "number"⟩)]⟩, ⟨some 0, [("y", ⟨.hint 2, "number"⟩)]⟩]

/-- A two-scope heap where the inner scope shadows `x`. -/
def heapW2 : Heap :=
  [⟨none, [("x", ⟨.hint 1, "number"⟩)]⟩, ⟨some 0, [("x", ⟨.hint 5, "number"⟩)]⟩]

/-- Tokens of the source `if (1) 2`, as `tokenize` produces them. -/
def ifToks : List Token :=
  [⟨.KEYWORD, "if", 1, 1⟩, ⟨.LEFT_PAREN, "(", 1, 4⟩, ⟨.NUMBER, "1", 1, 5⟩,
   ⟨.RIGHT_PAREN, ")", 1, 6⟩, ⟨.NUMBER, "2", 1, 8⟩, ⟨.EOF, "", 1, 9⟩]

/-- Tokens of the source `while (1) 2`. -/
def whileToks : List Token :=
  [⟨.KEYWORD, "while", 1, 1⟩, ⟨.LEFT_PAREN, "(", 1, 7⟩, ⟨.NUMBER, "1", 1, 8⟩,
   ⟨.RIGHT_PAREN, ")", 1, 9⟩, ⟨.NUMBER, "2", 1, 11⟩, ⟨.EOF, "", 1, 12⟩]

/-- Tokens of the source `return 5`. -/
def returnToks : List Token :=
  [⟨.KEYWORD, "return", 1, 1⟩, ⟨.NUMBER, "5", 1, 8⟩, ⟨.EOF, "", 1, 9⟩]

/-- Tokens of the source `var x = 1 + y`. -/
def varToks : List Token :=
  [⟨.KEYWORD, "var", 1, 1⟩, ⟨.IDENTIFIER, "x", 1, 5⟩, ⟨.ASSIGN, "=", 1, 7⟩,
   ⟨.NUMBER, "1", 1, 9⟩, ⟨.PLUS, "+", 1, 11⟩, ⟨.IDENTIFIER, "y", 1, 13⟩, ⟨.EOF, "", 1, 14⟩]

/-! # Theorems -/

/-! ## Claim C1 — statement dispatch for `if`, `while`, `return`

The dispatch in `parse_statement` calls `parse_if_statement`,
`parse_while_statement` and `parse_return_statement`, none of which is
defined on `NexusParser`; Python raises `AttributeError`, the statement
`try/except` swallows it, and the statement is dropped.  No
`IfStatement`/`WhileStatement`/`ReturnStatement` node is ever produced,
although the runtime implements handlers for all three and the spec
describes their parses — the methods were simply never written. -/

/-- Claim C1 (code bug): at the failing inputs `if (1) 2`, `while (1) 2`
and `return 5`, `parse_statement` consumes the keyword, hits the missing
method, and drops the statement (result `None`) instead of producing the
`IfStatement`/`WhileStatement`/`ReturnStatement` the claim describes;
the full parse of `if (1) 2` re-reads the condition and branch as two
separate expression statements. -/
theorem claim_C1_missing_statement_parsers :
    tokenize 40 "if (1) 2" = some ifToks
    ∧ parse_statement 30 ⟨ifToks, 0⟩ = (.ok none, ⟨ifToks, 1⟩)
    ∧ parse_statement 30 ⟨whileToks, 0⟩ = (.ok none, ⟨whileToks, 1⟩)
    ∧ parse_statement 30 ⟨returnToks, 0⟩ = (.ok none, ⟨returnToks, 1⟩)
    ∧ parse 30 ⟨ifToks, 0⟩ =
        (.ok ⟨[.exprStmt (.literal (.lint 1) "1"), .exprStmt (.literal (.lint 2) "2")]⟩,
         ⟨ifToks, 5⟩) :=
  ⟨rfl, rfl, rfl, rfl, rfl⟩

/-! ## Claim C3 — parser termination and recovery

`parse` recovers from many malformed statements (each failed parse that
consumed at least one token lets the loop make progress — the spec's
`func (` example does recover).  But a statement whose very first token is
rejected by `parse_primary` (for example a bare `;`) fails without
consuming anything, and the statement loop retries the same position
forever: `parse` diverges.  The lemma ladder below follows the recursive
descent on that token; the claim theorem shows the whole parse is still
running at every fuel, i.e. the source loops. -/

theorem semi_primaryRest : ∀ n, primaryRest n semiState = (.nofuel, semiState)
    ∨ primaryRest n semiState = (.err (.synErr semiMsg), semiState)
  | 0 => Or.inl rfl
  | _n + 1 => Or.inr rfl

theorem semi_parse_primary : ∀ n, parse_primary n semiState = (.nofuel, semiState)
    ∨ parse_primary n semiState = (.err (.synErr semiMsg), semiState)
  | 0 => Or.inl rfl
  | n + 1 => semi_primaryRest n

theorem semi_parse_unary : ∀ n, parse_unary n semiState = (.nofuel, semiState)
    ∨ parse_unary n semiState = (.err (.synErr semiMsg), semiState)
  | 0 => Or.inl rfl
  | n + 1 => semi_parse_primary n

theorem semi_parse_factor : ∀ n, parse_factor n semiState = (.nofuel, semiState)
    ∨ parse_factor n semiState = (.err (.synErr semiMsg), semiState)
  | 0 => Or.inl rfl
  | n + 1 => by
    rcases semi_parse_unary n with h | h
    · exact Or.inl (by simp only [parse_factor, h])
    · exact Or.inr (by simp only [parse_factor, h])

theorem semi_parse_term : ∀ n, parse_term n semiState = (.nofuel, semiState)
    ∨ parse_term n semiState = (.err (.synErr semiMsg), semiState)
  | 0 => Or.inl rfl
  | n + 1 => by
    rcases semi_parse_factor n with h | h
    · exact Or.inl (by simp only [parse_term, h])
    · exact Or.inr (by simp only [parse_term, h])


theorem semi_parse_comparison : ∀ n, parse_comparison n semiState = (.nofuel, semiState)
    ∨ parse_comparison n semiState = (.err (.synErr semiMsg), semiState)
  | 0 => Or.inl rfl
  | n + 1 => by
    rcases semi_parse_term n with h | h
    · exact Or.inl (by simp only [parse_comparison, h])
    · exact Or.inr (by simp only [parse_comparison, h])

theorem semi_parse_equality : ∀ n, parse_equality n semiState = (.nofuel, semiState)
    ∨ parse_equality n semiState = (.err (.synErr semiMsg), semiState)
  | 0 => Or.inl rfl
  | n + 1 => by
    rcases semi_parse_comparison n with h | h
    · exact Or.inl (by simp only [parse_equality, h])
    · exact Or.inr (by simp only [parse_equality, h])

theorem semi_parse_logical_and : ∀ n, parse_logical_and n semiState = (.nofuel, semiState)
    ∨ parse_logical_and n semiState = (.err (.synErr semiMsg), semiState)
  | 0 => Or.inl rfl
  | n + 1 => by
    rcases semi_parse_equality n with h | h
    · exact Or.inl (by simp only [parse_logical_and, h])
    · exact Or.inr (by simp only [parse_logical_and, h])

theorem semi_parse_logical_or : ∀ n, parse_logical_or n semiState = (.nofuel, semiState)
    ∨ parse_logical_or n semiState = (.err (.synErr semiMsg), semiState)
  | 0 => Or.inl rfl
  | n + 1 => by
    rcases semi_parse_logical_and n with h | h
    · exact Or.inl (by simp only [parse_logical_or, h])
    · exact Or.inr (by simp only [parse_logical_or, h])

theorem semi_parse_assignment : ∀ n, parse_assignment n semiState = (.nofuel, semiState)
    ∨ parse_assignment n semiState = (.err (.synErr semiMsg), semiState)
  | 0 => Or.inl rfl
  | n + 1 => by
    rcases semi_parse_logical_or n with h | h
    · exact Or.inl (by simp only [parse_assignment, h])
    · exact Or.inr (by simp only [parse_assignment, h])

theorem semi_parse_expression : ∀ n, parse_expression n semiState = (.nofuel, semiState)
    ∨ parse_expression n semiState = (.err (.synErr semiMsg), semiState)
  | 0 => Or.inl rfl
  | n + 1 => semi_parse_assignment n

theorem semi_exprStatementTail : ∀ n, exprStatementTail n semiState = (.nofuel, semiState)
    ∨ exprStatementTail n semiState = (.err (.synErr semiMsg), semiState)
  | 0 => Or.inl rfl
  | n + 1 => by
    rcases semi_parse_expression n with h | h
    · exact Or.inl (by simp only [exprStatementTail, h])
    · exact Or.inr (by simp only [exprStatementTail, h])

/-- On the statement-start token `;`, `parse_statement` either runs out of
fuel or fails, reports, and drops the statement — without consuming any
token (the parser position is unchanged). -/
theorem semi_parse_statement : ∀ n, parse_statement n semiState = (.nofuel, semiState)
    ∨ parse_statement n semiState = (.ok none, semiState)
  | 0 => Or.inl rfl
  | n + 1 => by
    have e0 : matchT [TokType.KEYWORD] semiState = (.ok false, semiState) := rfl
    rcases semi_exprStatementTail n with h | h
    · exact Or.inl (by simp only [parse_statement, e0, h])
    · exact Or.inr (by simp only [parse_statement, e0, h])

/-- The statement loop never terminates on `;` — for every fuel it is
still running when the fuel ends. -/
theorem semi_parseLoop : ∀ n, parseLoop n semiState = (.nofuel, semiState)
  | 0 => rfl
  | n + 1 => by
    have e0 : isAtEndT semiState = .ok false := rfl
    have e1 : matchT [TokType.NEWLINE] semiState = (.ok false, semiState) := rfl
    rcases semi_parse_statement n with h | h
    · simp only [parseLoop, e0, e1, h]
    · simp only [parseLoop, e0, e1, h]
      exact semi_parseLoop n

/-- Claim C3 (code bug): on the EOF-terminated token sequence of the
source `;`, `parse` does not terminate — at every fuel it reports fuel
exhaustion with the position still at token 0, because `parse_statement`
drops the statement without consuming a token and the loop retries; the
claim (and the spec's recovery policy) says parse always terminates with
a `Program`, dropping failed statements. -/
theorem claim_C3_parse_diverges (fuel : Nat) :
    parse fuel semiState = (.nofuel, semiState) := by
  have h := semi_parseLoop fuel
  simp only [parse, h]

/-! ## Claim C5 — lexing `1.2.3` -/

/-- Claim C5 counterexample: `1.2.3` does lex with the literal cut at the
second dot, but the tail is a `DOT` token followed by the numeric literal
`3` — not a numeric literal `.3` as the claim asserts (`read_number` is
only entered on a digit, so no numeric token ever starts with a dot). -/
theorem claim_C5_counterexample :
    (tokenize 50 "1.2.3").map (List.map tokenTV)
      = some [(.NUMBER, "1.2"), (.DOT, "."), (.NUMBER, "3"), (.EOF, "")]
    ∧ (some [(.NUMBER, "1.2"), (.DOT, "."), (.NUMBER, "3"), (.EOF, "")]
        : Option (List (TokType × String)))
      ≠ some [(.NUMBER, "1.2"), (.NUMBER, ".3"), (.EOF, "")] := by
  exact ⟨rfl, by decide⟩

/-- `read_number` computes exactly the spec's description of a numeric
literal: the maximal prefix that is a run of digits with at most one dot,
the second dot ending the literal early; the position advances by its
length on the same line. -/
theorem readNumberChars_eq_spec : ∀ (cs : List Char) (hasDot : Bool) (line col : Nat),
    readNumberChars cs hasDot line col =
      (String.mk (specNumTake cs hasDot), cs.drop (specNumTake cs hasDot).length,
       line, col + (specNumTake cs hasDot).length)
  | [], hasDot, line, col => by simp [readNumberChars, specNumTake]
  | c :: rest, hasDot, line, col => by
    by_cases hdig : c.isDigit
    · have hne : ¬(c = '.') := by rintro rfl; exact absurd hdig (by decide)
      have hnl : ¬(c = '\n') := by rintro rfl; exact absurd hdig (by decide)
      have ihh := readNumberChars_eq_spec rest hasDot line (col + 1)
      simp only [readNumberChars, specNumTake, advancePos]
      simp [hdig, hne, hnl, ihh]
      omega
    · by_cases hdot : c = '.'
      · subst hdot
        cases hasDot with
        | true => simp [readNumberChars, specNumTake, hdig]
        | false =>
          have ihh := readNumberChars_eq_spec rest true line (col + 1)
          simp only [readNumberChars, specNumTake, advancePos]
          simp [hdig, ihh]
          omega
      · simp [readNumberChars, specNumTake, hdig, hdot]

/-- Claim C5 as amended: scanning `1.2.3` produces numeric literal `1.2`,
then a `DOT` token `.`, then numeric literal `3`; in general a numeric
literal is the maximal run of digits with at most one `.`, a second `.`
terminating the literal early (and lexing separately). -/
theorem claim_C5_amended :
    (tokenize 50 "1.2.3").map (List.map tokenTV)
      = some [(.NUMBER, "1.2"), (.DOT, "."), (.NUMBER, "3"), (.EOF, "")]
    ∧ ∀ (cs : List Char) (hasDot : Bool) (line col : Nat),
      readNumberChars cs hasDot line col =
        (String.mk (specNumTake cs hasDot), cs.drop (specNumTake cs hasDot).length,
         line, col + (specNumTake cs hasDot).length) :=
  ⟨rfl, fun cs hasDot line col => readNumberChars_eq_spec cs hasDot line col⟩

/-! ## Claim C7 — environment lookup, assignment, shadowing

`envGet`/`envAssign` are characterized against the spec-side walk of the
environment chain (`specLookup` / `specNearest`): lookup returns the
binding of the nearest defining scope (shadowing), assignment overwrites
the nearest defining scope and never creates a binding (the binding-name
skeleton of the heap is preserved), and when no scope defines the name
both raise `NameError` with no heap effect (a failing assignment leaves
the evaluator state unchanged, final conjunct). -/

theorem setVar_keys (vars : List (String × NexusValue)) (name : String) (v : NexusValue)
    (h : (lookupVar vars name).isSome) :
    (setVar vars name v).map Prod.fst = vars.map Prod.fst := by
  induction vars with
  | nil => simp [lookupVar] at h
  | cons p rest ih =>
    obtain ⟨k, w⟩ := p
    by_cases hk : k = name
    · subst hk; simp [setVar]
    · simp [lookupVar, hk] at h
      simp [setVar, hk, ih h]

theorem list_set_self {α : Type} (l : List α) (j : Nat) (a : α) (h : l[j]? = some a) :
    l.set j a = l := by
  induction l generalizing j with
  | nil => simp at h
  | cons x rest ih =>
    cases j with
    | zero => simp at h; simp [h]
    | succ j => simp at h; simp [List.set, ih j h]

theorem lookupVar_isSome_of_defines (heap : Heap) (j : Nat) (name : String) (e : EnvRec)
    (hj : heap[j]? = some e) (hd : scopeDefines heap j name = true) :
    (lookupVar e.vars name).isSome := by
  simp [scopeDefines, hj] at hd
  exact hd

theorem keysOf_updateHeapAt (heap : Heap) (j : Nat) (name : String) (v : NexusValue)
    (hd : scopeDefines heap j name = true) :
    keysOf (updateHeapAt heap j name v) = keysOf heap := by
  match he : heap[j]? with
  | none => simp [scopeDefines, he] at hd
  | some e =>
    have hsome : (lookupVar e.vars name).isSome := lookupVar_isSome_of_defines heap j name e he hd
    simp only [updateHeapAt, he, keysOf, List.map_set]
    rw [setVar_keys e.vars name v hsome]
    exact list_set_self _ j _ (by simp [List.getElem?_map, he])

theorem specLookup_eq_nearest (heap : Heap) (ids : List Nat) (name : String) :
    specLookup heap ids name =
      match specNearest heap ids name with
      | some j => heap[j]?.bind (fun e => lookupVar e.vars name)
      | none => none := by
  induction ids with
  | nil => simp [specLookup, specNearest]
  | cons j rest ih =>
    match he : heap[j]? with
    | none =>
      have hd : scopeDefines heap j name = false := by simp [scopeDefines, he]
      simp [specLookup, specNearest, he, hd, List.find?] at ih ⊢
      exact ih
    | some e =>
      match hl : lookupVar e.vars name with
      | some w =>
        have hd : scopeDefines heap j name = true := by simp [scopeDefines, he, hl]
        simp [specLookup, specNearest, he, hl, hd, List.find?]
      | none =>
        have hd : scopeDefines heap j name = false := by simp [scopeDefines, he, hl]
        simp [specLookup, specNearest, he, hl, hd, List.find?] at ih ⊢
        exact ih


theorem envGet_spec : ∀ (fuel : Nat) (heap : Heap) (envId : Nat) (name : String)
    (ids : List Nat), envChain fuel heap envId = some ids →
    envGet fuel heap envId name =
      (match specLookup heap ids name with
       | some w => .ok w
       | none => .err (.nameError ("Undefined variable " ++ name)))
  | 0, heap, envId, name, ids => by intro h; simp [envChain] at h
  | fuel + 1, heap, envId, name, ids => by
    intro h
    match he : heap[envId]? with
    | none =>
      simp [envChain, he] at h
      subst h
      simp [envGet, he, specLookup]
    | some e =>
      match hp : e.parent with
      | none =>
        simp [envChain, he, hp] at h
        subst h
        match hl : lookupVar e.vars name with
        | some w => simp [envGet, he, hp, hl, specLookup]
        | none => simp [envGet, he, hp, hl, specLookup]
      | some p =>
        simp [envChain, he, hp] at h
        obtain ⟨ids2, hch2, rfl⟩ := h
        match hl : lookupVar e.vars name with
        | some w => simp [envGet, he, hp, hl, specLookup]
        | none =>
          have ih := envGet_spec fuel heap p name ids2 hch2
          simp [envGet, he, hp, hl, specLookup, ih]

theorem envAssign_spec : ∀ (fuel : Nat) (heap : Heap) (envId : Nat) (name : String)
    (v : NexusValue) (ids : List Nat), envChain fuel heap envId = some ids →
    envAssign fuel heap envId name v =
      (match specNearest heap ids name with
       | some j => .ok (updateHeapAt heap j name v)
       | none => .err (.nameError ("Undefined variable " ++ name)))
  | 0, heap, envId, name, v, ids => by intro h; simp [envChain] at h
  | fuel + 1, heap, envId, name, v, ids => by
    intro h
    match he : heap[envId]? with
    | none =>
      simp [envChain, he] at h
      subst h
      have hd : scopeDefines heap envId name = false := by simp [scopeDefines, he]
      simp [envAssign, he, specNearest, List.find?, hd]
    | some e =>
      match hp : e.parent with
      | none =>
        simp [envChain, he, hp] at h
        subst h
        match hl : (lookupVar e.vars name).isSome with
        | true =>
          have hd : scopeDefines heap envId name = true := by simp [scopeDefines, he, hl]
          simp [envAssign, he, hp, hl, specNearest, List.find?, hd, updateHeapAt]
        | false =>
          have hd : scopeDefines heap envId name = false := by simp [scopeDefines, he, hl]
          simp [envAssign, he, hp, hl, specNearest, List.find?, hd]
      | some p =>
        simp [envChain, he, hp] at h
        obtain ⟨ids2, hch2, rfl⟩ := h
        match hl : (lookupVar e.vars name).isSome with
        | true =>
          have hd : scopeDefines heap envId name = true := by simp [scopeDefines, he, hl]
          simp [envAssign, he, hp, hl, specNearest, List.find?, hd, updateHeapAt]
        | false =>
          have hd : scopeDefines heap envId name = false := by simp [scopeDefines, he, hl]
          have ih := envAssign_spec fuel heap p name v ids2 hch2
          simp [envAssign, he, hp, hl, specNearest, List.find?, hd, ih]


/-- Claim C7: along any environment chain, lookup returns the binding of
the nearest defining scope (a declaration in scope S shadows same-named
ancestor bindings); non-declaration assignment stores into the nearest
enclosing scope that already defines the name, never creating a new
binding in any scope (binding-name skeleton preserved); and when no scope
in the chain defines the name, both lookup and assignment raise
`NameError`, the failed assignment leaving the evaluator state unchanged. -/
theorem claim_C7_env_scoping (fuel : Nat) (heap : Heap) (envId : Nat) (name : String)
    (v : NexusValue) (ids : List Nat) (hch : envChain fuel heap envId = some ids) :
    (envGet fuel heap envId name =
      (match specLookup heap ids name with
       | some w => .ok w
       | none => .err (.nameError ("Undefined variable " ++ name))))
    ∧ (envAssign fuel heap envId name v =
      (match specNearest heap ids name with
       | some j => .ok (updateHeapAt heap j name v)
       | none => .err (.nameError ("Undefined variable " ++ name))))
    ∧ (∀ j, specNearest heap ids name = some j →
        keysOf (updateHeapAt heap j name v) = keysOf heap)
    ∧ (specLookup heap ids name =
      (match specNearest heap ids name with
       | some j => heap[j]?.bind (fun e => lookupVar e.vars name)
       | none => none))
    ∧ (∀ (n env : Nat) (st st1 : RState) (rhs : Expr) (w : NexusValue) (er : RunErr),
        evaluate n env st rhs = (.ok w, st1) →
        envAssign (st1.heap.length + 1) st1.heap env name w = .err er →
        evaluate (n + 1) env st (.assign (.ident name) rhs) = (.err er, st1)) := by
  refine ⟨envGet_spec fuel heap envId name ids hch,
          envAssign_spec fuel heap envId name v ids hch, ?_,
          specLookup_eq_nearest heap ids name, ?_⟩
  · intro j hj
    have hx : List.find? (fun k => scopeDefines heap k name) ids = some j := by
      simpa [specNearest] using hj
    have hf := @List.find?_some Nat (fun k => scopeDefines heap k name) j ids hx
    exact keysOf_updateHeapAt heap j name v (by simpa using hf)
  · intro n env st st1 rhs w er h1 h2
    simp only [evaluate, h1, h2]

/-- Witness for claim C7 on two concrete two-scope heaps. -/
theorem claim_C7_witness :
    envGet 3 heapW 1 "x" = .ok ⟨.hint 1, "number"⟩
    ∧ envAssign 3 heapW 1 "x" ⟨.hint 9, "number"⟩
        = .ok [⟨none, [("x", ⟨.hint 9, "number"⟩)]⟩, ⟨some 0, [("y", ⟨.hint 2, "number"⟩)]⟩]
    ∧ keysOf (updateHeapAt heapW 0 "x" ⟨.hint 9, "number"⟩) = keysOf heapW
    ∧ envGet 3 heapW 1 "zz" = .err (.nameError "Undefined variable zz")
    ∧ envAssign 3 heapW 1 "zz" ⟨.hint 9, "number"⟩ = .err (.nameError "Undefined variable zz")
    ∧ envGet 3 heapW2 1 "x" = .ok ⟨.hint 5, "number"⟩ := by
  have h1 := claim_C7_env_scoping 3 heapW 1 "x" ⟨.hint 9, "number"⟩ [1, 0] rfl
  have h2 := claim_C7_env_scoping 3 heapW 1 "zz" ⟨.hint 9, "number"⟩ [1, 0] rfl
  have h3 := claim_C7_env_scoping 3 heapW2 1 "x" ⟨.hint 9, "number"⟩ [1, 0] rfl
  exact ⟨h1.1.trans (by rfl), h1.2.1.trans (by rfl), h1.2.2.1 0 (by rfl),
         h2.1.trans (by rfl), h2.2.1.trans (by rfl), h3.1.trans (by rfl)⟩

/-! ## Claim C4 — top-level interpretation -/

theorem execStmtsFrom_snoc : ∀ (bs : List Stmt) (fuel env : Nat) (st : RState)
    (acc : Option NexusValue) (s : Stmt),
    execStmtsFrom fuel env st acc (bs ++ [s])
      = seqThen (execStmtsFrom fuel env st acc bs) (fun st1 => execute fuel env st1 s) := by
  intro bs
  induction bs with
  | nil =>
    intro fuel env st acc s
    simp only [List.nil_append, execStmtsFrom, seqThen]
    rcases h : execute fuel env st s with ⟨r, st1⟩
    cases r <;> simp [execStmtsFrom]
  | cons b bs ih =>
    intro fuel env st acc s
    simp only [List.cons_append, execStmtsFrom]
    rcases h : execute fuel env st b with ⟨r, st1⟩
    cases r <;> simp [seqThen, ih]

/-- Claim C4 counterexample: `interpret` returns the result of executing
the *last statement*, not the value of the last expression statement — a
trailing declaration after the final expression statement changes the
result from that expression's value to none. -/
theorem claim_C4_counterexample :
    (interpret 3 ⟨[.exprStmt (.literal (.lint 1) "1")]⟩).1
      = .ok (some ⟨.hint 1, "number"⟩)
    ∧ (interpret 3 ⟨[.exprStmt (.literal (.lint 1) "1"), .varDecl "x" none]⟩).1 = .ok none
    ∧ (.ok none : Res (Option NexusValue)) ≠ .ok (some ⟨.hint 1, "number"⟩) :=
  ⟨rfl, rfl, by simp⟩

/-- Claim C4 as amended: `interpret` executes the top-level statements in
order against a fresh top-level environment pre-populated with the
built-ins `print`, `input`, `len`, `type`, `str`, `num` (in that order),
and returns the result of executing the last top-level statement: the
value of its expression when that statement is an expression statement,
and none when it is a declaration — so the result is none whenever a
non-expression statement follows the last expression statement. -/
theorem claim_C4_amended :
    (∀ (fuel : Nat) (body : List Stmt) (r : Option NexusValue) (st1 : RState),
      execStmts fuel 0 initState body = (.ok r, st1) →
      interpret fuel ⟨body⟩ = (.ok r, st1))
    ∧ initState.heap = [⟨none,
        [("print", ⟨.hbuiltin "print", "builtin_function"⟩),
         ("input", ⟨.hbuiltin "input", "builtin_function"⟩),
         ("len", ⟨.hbuiltin "len", "builtin_function"⟩),
         ("type", ⟨.hbuiltin "type", "builtin_function"⟩),
         ("str", ⟨.hbuiltin "str", "builtin_function"⟩),
         ("num", ⟨.hbuiltin "num", "builtin_function"⟩)]⟩]
    ∧ (∀ (fuel env : Nat) (st : RState) (acc : Option NexusValue) (bs : List Stmt) (s : Stmt),
        execStmtsFrom fuel env st acc (bs ++ [s])
          = seqThen (execStmtsFrom fuel env st acc bs) (fun st1 => execute fuel env st1 s))
    ∧ (∀ (fuel env : Nat) (st st1 : RState) (e : Expr) (v : NexusValue),
        evaluate fuel env st e = (.ok v, st1) →
        execute (fuel + 1) env st (.exprStmt e) = (.ok (some v), st1))
    ∧ (∀ (fuel env : Nat) (st st1 : RState) (name : String) (init : Option Expr)
        (r : Option NexusValue),
        execute fuel env st (.varDecl name init) = (.ok r, st1) → r = none)
    ∧ (∀ (fuel env : Nat) (st : RState) (name : String) (params : List String)
        (body : List Stmt),
        execute (fuel + 1) env st (.funcDecl name params body) =
          (.ok none,
           { st with heap := envDefine st.heap env name (NexusValue.mk (.hfunc name params body env) "function") })) := by
  refine ⟨?_, rfl, ?_, ?_, ?_, ?_⟩
  · intro fuel body r st1 h
    simp only [interpret, h]
  · intro fuel env st acc bs s
    exact execStmtsFrom_snoc bs fuel env st acc s
  · intro fuel env st st1 e v h
    simp only [execute, h]
  · intro fuel env st st1 name init r h
    cases fuel with
    | zero => simp [execute] at h
    | succ n =>
      cases init with
      | none => simp [execute] at h; exact h.1.symm
      | some e =>
        simp only [execute] at h
        split at h <;> simp_all
  · intro fuel env st name params body
    rfl

/-- Witness for the amended claim C4 at concrete programs. -/
theorem claim_C4_witness :
    interpret 4 ⟨[.exprStmt (.literal (.lint 5) "5")]⟩
      = (.ok (some ⟨.hint 5, "number"⟩), initState)
    ∧ execute 4 0 initState (.varDecl "x" none)
      = (.ok none, { initState with heap := envDefine initState.heap 0 "x" nullValue })
    ∧ execStmtsFrom 4 0 initState none ([.varDecl "x" none] ++ [.exprStmt (.literal (.lint 5) "5")])
      = seqThen (execStmtsFrom 4 0 initState none [.varDecl "x" none])
          (fun st1 => execute 4 0 st1 (.exprStmt (.literal (.lint 5) "5"))) := by
  have h := claim_C4_amended
  exact ⟨h.1 4 [.exprStmt (.literal (.lint 5) "5")] (some ⟨.hint 5, "number"⟩) initState rfl,
    rfl, h.2.2.1 4 0 initState none [.varDecl "x" none] (.exprStmt (.literal (.lint 5) "5"))⟩

/-! ## Claim C8 — division -/

/-- Claim C8: evaluating `10 / 0` raises `ZeroDivisionError` (a raised
error, not a special value), and `10 / 2` yields the number 5 (as a
float, true division). -/
theorem claim_C8_division :
    evaluate 2 0 initState (.binary (.literal (.lint 10) "10") "/" (.literal (.lint 0) "0"))
      = (.err (.zeroDivisionError "Division by zero"), initState)
    ∧ evaluate 2 0 initState (.binary (.literal (.lint 10) "10") "/" (.literal (.lint 2) "2"))
      = (.ok ⟨.hfloat ⟨5, 1⟩, "number"⟩, initState) :=
  ⟨rfl, rfl⟩

/-! ## Claim C9 — the `+` overload -/

theorem hostAdd_num (a b : HVal) (x y : PyFloat) (fx fy : Bool)
    (ha : toNumQ a = some (x, fx)) (hb : toNumQ b = some (y, fy)) :
    hostAdd a b = .ok (numOut (pfAdd x y) (fx || fy)) := by
  cases a <;> cases b <;> simp_all [toNumQ, hostAdd]

/-- Claim C9: binary `+` yields string concatenation of the text forms of
both operands when either operand carries the string type tag, and host
numeric addition (int unless either side is a float) otherwise;
`1 + 1` evaluates to the number 2 and `"a" + 1` to the string `a1`. -/
theorem claim_C9_plus :
    (∀ l r : NexusValue, l.type_name = "string" ∨ r.type_name = "string" →
      applyBinary "+" l r = .ok ⟨.hstr (pyStr l.value ++ pyStr r.value), "string"⟩)
    ∧ (∀ (l r : NexusValue) (x y : PyFloat) (fx fy : Bool),
        ¬(l.type_name = "string" ∨ r.type_name = "string") →
        toNumQ l.value = some (x, fx) → toNumQ r.value = some (y, fy) →
        applyBinary "+" l r = .ok ⟨numOut (pfAdd x y) (fx || fy), "number"⟩)
    ∧ evaluate 2 0 initState (.binary (.literal (.lint 1) "1") "+" (.literal (.lint 1) "1"))
        = (.ok ⟨.hint 2, "number"⟩, initState)
    ∧ evaluate 2 0 initState (.binary (.literal (.lstr "a") "\"a\"") "+" (.literal (.lint 1) "1"))
        = (.ok ⟨.hstr "a1", "string"⟩, initState) := by
  refine ⟨?_, ?_, rfl, rfl⟩
  · intro l r h
    unfold applyBinary
    rw [if_pos rfl, if_pos h]
  · intro l r x y fx fy hns h1 h2
    unfold applyBinary
    rw [if_pos rfl, if_neg hns, hostAdd_num l.value r.value x y fx fy h1 h2]

/-- Witness for claim C9 at concrete operand pairs. -/
theorem claim_C9_witness :
    applyBinary "+" ⟨.hstr "a", "string"⟩ ⟨.hint 1, "number"⟩
      = .ok ⟨.hstr (pyStr (.hstr "a") ++ pyStr (.hint 1)), "string"⟩
    ∧ applyBinary "+" ⟨.hint 2, "number"⟩ ⟨.hint 3, "number"⟩
      = .ok ⟨numOut (pfAdd (pfOfInt 2) (pfOfInt 3)) false, "number"⟩ :=
  ⟨claim_C9_plus.1 ⟨.hstr "a", "string"⟩ ⟨.hint 1, "number"⟩ (Or.inl rfl),
   claim_C9_plus.2.1 ⟨.hint 2, "number"⟩ ⟨.hint 3, "number"⟩ (pfOfInt 2) (pfOfInt 3)
     false false (by simp) rfl rfl⟩

/-! ## Claim C10 — built-in call results are null-tagged -/

/-- Claim C10: a call whose callee evaluates to a builtin-function value
passes the fully evaluated argument list to the built-in and wraps the
returned value in a `NexusValue` whose type tag is `"null"` — the result
is not retagged to its true type (concretely, `len("ab")` yields a
null-tagged wrapper around the number-tagged 2, not a number-tagged
value). -/
theorem claim_C10_builtin_wrap :
    (∀ (n env : Nat) (st st1 st2 : RState) (ce : Expr) (argEs : List Expr)
       (bname : String) (vs : List NexusValue),
      evaluate n env st ce = (.ok ⟨.hbuiltin bname, "builtin_function"⟩, st1) →
      evalArgs n env st1 argEs = (.ok vs, st2) →
      evaluate (n + 1) env st (.call ce argEs) =
        wrapBuiltinOutcome (applyBuiltin bname vs st2))
    ∧ evaluate 3 0 initState (.call (.ident "len") [.literal (.lstr "ab") "\"ab\""])
        = (.ok ⟨.hnexus (.hint 2) "number", "null"⟩, initState)
    ∧ (NexusValue.mk (.hnexus (.hint 2) "number") "null").type_name ≠ "number" := by
  refine ⟨?_, rfl, by simp⟩
  intro n env st st1 st2 ce argEs bname vs h1 h2
  simp only [evaluate, h1, h2]
  rcases happ : applyBuiltin bname vs st2 with ⟨r, st3⟩
  cases r <;> simp [wrapBuiltinOutcome, happ]

/-- Witness for claim C10: the `len("ab")` call instance. -/
theorem claim_C10_witness :
    evaluate 3 0 initState (.call (.ident "len") [.literal (.lstr "ab") "\"ab\""])
      = wrapBuiltinOutcome (applyBuiltin "len" [⟨.hstr "ab", "string"⟩] initState) :=
  claim_C10_builtin_wrap.1 2 0 initState initState initState (.ident "len")
    [.literal (.lstr "ab") "\"ab\""] "len" [⟨.hstr "ab", "string"⟩] rfl rfl

/-! ## Claim C6 — function call semantics -/

theorem setVar_fresh (vars : List (String × NexusValue)) (name : String) (v : NexusValue)
    (h : lookupVar vars name = none) : setVar vars name v = vars ++ [(name, v)] := by
  induction vars with
  | nil => simp [setVar]
  | cons p rest ih =>
    obtain ⟨k, w⟩ := p
    by_cases hk : k = name
    · simp [lookupVar, hk] at h
    · simp [lookupVar, hk] at h
      simp [setVar, hk, ih h]

theorem lookupVar_append_fresh (vars : List (String × NexusValue)) (p : String)
    (v : NexusValue) (q : String) (hq : lookupVar vars q = none) (hne : q ≠ p) :
    lookupVar (vars ++ [(p, v)]) q = none := by
  induction vars with
  | nil =>
    simp [lookupVar]
    exact fun h => hne h.symm
  | cons x rest ih =>
    obtain ⟨k, w⟩ := x
    by_cases hk : k = q
    · simp [lookupVar, hk] at hq
    · simp [lookupVar, hk] at hq ⊢
      exact ih hq

theorem set_concat_length {α : Type} : ∀ (l : List α) (a b : α),
    (l ++ [a]).set l.length b = l ++ [b]
  | [], _a, _b => rfl
  | x :: rest, a, b => by
    show x :: (rest ++ [a]).set rest.length b = x :: (rest ++ [b])
    rw [set_concat_length rest a b]

theorem getElem?_concat_length {α : Type} : ∀ (l : List α) (a : α),
    (l ++ [a])[l.length]? = some a
  | [], _a => rfl
  | _x :: rest, a => by
    rw [List.cons_append, List.length_cons, List.getElem?_cons_succ]
    exact getElem?_concat_length rest a

theorem bindLoop_fresh : ∀ (params : List String) (args : List NexusValue)
    (heap : Heap) (par : Option Nat) (vars0 : List (String × NexusValue)),
    params.Nodup → (∀ p ∈ params, lookupVar vars0 p = none) →
    bindLoop (heap ++ [⟨par, vars0⟩]) heap.length params args
      = heap ++ [⟨par, vars0 ++ bindSpec params args⟩]
  | [], args, heap, par, vars0 => by
    intro _ _
    simp [bindLoop, bindSpec]
  | p :: ps, args, heap, par, vars0 => by
    intro hnd hfresh
    have hp : lookupVar vars0 p = none := hfresh p (by simp)
    have hstep : envDefine (heap ++ [⟨par, vars0⟩]) heap.length p (args.headD nullValue)
        = heap ++ [⟨par, vars0 ++ [(p, args.headD nullValue)]⟩] := by
      simp only [envDefine, getElem?_concat_length]
      rw [setVar_fresh vars0 p _ hp, set_concat_length]
    have hnd2 : ps.Nodup := (List.nodup_cons.mp hnd).2
    have hpnotin : p ∉ ps := (List.nodup_cons.mp hnd).1
    have hfresh2 : ∀ q ∈ ps, lookupVar (vars0 ++ [(p, args.headD nullValue)]) q = none := by
      intro q hq
      exact lookupVar_append_fresh vars0 p _ q (hfresh q (by simp [hq]))
        (fun hqp => hpnotin (hqp ▸ hq))
    calc bindLoop (heap ++ [⟨par, vars0⟩]) heap.length (p :: ps) args
        = bindLoop (heap ++ [⟨par, vars0 ++ [(p, args.headD nullValue)]⟩]) heap.length ps
            (args.drop 1) := by
          simp only [bindLoop, hstep]
      _ = heap ++ [⟨par, (vars0 ++ [(p, args.headD nullValue)]) ++ bindSpec ps (args.drop 1)⟩] :=
          bindLoop_fresh ps (args.drop 1) heap par _ hnd2 hfresh2
      _ = heap ++ [⟨par, vars0 ++ bindSpec (p :: ps) args⟩] := by
          simp [bindSpec, List.append_assoc]

theorem bindSpec_lookup : ∀ (params : List String) (args : List NexusValue),
    params.Nodup → ∀ (i : Nat) (h : i < params.length),
    lookupVar (bindSpec params args) params[i] = some (args.getD i nullValue)
  | [], _, _, i, h => by simp at h
  | p :: ps, args, hnd, 0, h => by
    simp [bindSpec, lookupVar]
    cases args <;> simp [List.getD]
  | p :: ps, args, hnd, i + 1, h => by
    have hpnotin : p ∉ ps := (List.nodup_cons.mp hnd).1
    have hlt : i < ps.length := by simpa using Nat.lt_of_succ_lt_succ h
    have hne : p ≠ ps[i] := by
      intro he
      exact hpnotin (he ▸ ps.getElem_mem hlt)
    simp only [bindSpec, lookupVar, List.getElem_cons_succ]
    rw [if_neg hne]
    have ih := bindSpec_lookup ps (args.drop 1) (List.nodup_cons.mp hnd).2 i
      (by simpa using Nat.lt_of_succ_lt_succ h)
    rw [ih]
    congr 1
    simp [List.getD, List.getElem?_drop]

theorem bindSpec_take : ∀ (params : List String) (args : List NexusValue),
    bindSpec params args = bindSpec params (args.take params.length)
  | [], _ => rfl
  | p :: ps, args => by
    cases args with
    | nil => simp [bindSpec, bindSpec_take ps []]
    | cons a rest =>
      simp [bindSpec, List.take]
      exact bindSpec_take ps rest


/-- Claim C6: calling a user function allocates a new environment whose
parent is the captured closure environment (the caller environment is not
even an input of `funcCall`), binds each parameter positionally to the
corresponding argument with null for missing trailing arguments,
ignores arguments beyond the parameter count, executes the body
statements in order in that environment, and yields null unless a
`return` is raised during the body (`callOutcome` maps normal completion
to null and a caught `ReturnValue` to its payload). -/
theorem claim_C6_call_semantics (fuel : Nat) (params : List String) (body : List Stmt)
    (closure : Nat) (args : List NexusValue) (st : RState) (hnd : params.Nodup) :
    bindLoop (st.heap ++ [⟨some closure, []⟩]) st.heap.length params args
      = st.heap ++ [⟨some closure, bindSpec params args⟩]
    ∧ (∀ (i : Nat) (h : i < params.length),
        lookupVar (bindSpec params args) params[i] = some (args.getD i nullValue))
    ∧ bindSpec params args = bindSpec params (args.take params.length)
    ∧ funcCall (fuel + 1) params body closure args st =
        callOutcome (execBody fuel st.heap.length
          { st with heap := st.heap ++ [⟨some closure, bindSpec params args⟩] } body) := by
  have hb : bindLoop (st.heap ++ [⟨some closure, []⟩]) st.heap.length params args
      = st.heap ++ [⟨some closure, bindSpec params args⟩] := by
    have := bindLoop_fresh params args st.heap (some closure) [] hnd (by intro p _; rfl)
    simpa using this
  refine ⟨hb, bindSpec_lookup params args hnd, bindSpec_take params args, ?_⟩
  simp only [funcCall, hb]
  rcases hx : execBody fuel st.heap.length
      { st with heap := st.heap ++ [⟨some closure, bindSpec params args⟩] } body with ⟨r, st1⟩
  cases r <;> simp [callOutcome]

/-- Witness for claim C6: a two-parameter call with one argument (second
parameter bound to null), extra arguments ignored, and an empty body
returning null. -/
theorem claim_C6_witness :
    bindLoop (initState.heap ++ [⟨some 0, []⟩]) 1 ["a", "b"] [⟨.hint 7, "number"⟩]
      = initState.heap ++ [⟨some 0, [("a", ⟨.hint 7, "number"⟩), ("b", nullValue)]⟩]
    ∧ lookupVar (bindSpec ["a", "b"] [⟨.hint 7, "number"⟩]) "b" = some nullValue
    ∧ bindSpec ["a", "b"] [⟨.hint 7, "number"⟩, ⟨.hint 8, "number"⟩, ⟨.hint 9, "number"⟩]
      = bindSpec ["a", "b"] [⟨.hint 7, "number"⟩, ⟨.hint 8, "number"⟩]
    ∧ funcCall 4 ["a", "b"] [] 0 [⟨.hint 7, "number"⟩] initState
      = (.ok nullValue,
         { initState with heap := initState.heap
             ++ [⟨some 0, [("a", ⟨.hint 7, "number"⟩), ("b", nullValue)]⟩] }) := by
  have h1 := claim_C6_call_semantics 3 ["a", "b"] [] 0 [⟨.hint 7, "number"⟩] initState
    (by simp)
  have h2 := claim_C6_call_semantics 3 ["a", "b"] []
    0 [⟨.hint 7, "number"⟩, ⟨.hint 8, "number"⟩, ⟨.hint 9, "number"⟩] initState (by simp)
  exact ⟨h1.1.trans (by rfl),
    (h1.2.1 1 (by simp)).trans (by rfl),
    (h2.2.2.1).trans (by rfl),
    (h1.2.2.2).trans (by rfl)⟩

/-! ## Claim C2 — the parser output grammar

Proved by a joint induction on fuel over all parser functions
(`ParserGood`): each expression parser only builds
literal/identifier/binary/unary/assignment nodes, and each statement
parser only builds variable declarations, function declarations (bodies
again good) and expression statements. -/

theorem goodStmtListB_iff : ∀ l : List Stmt, goodStmtListB l = true ↔ ∀ s ∈ l, goodStmtB s = true
  | [] => by simp [goodStmtListB]
  | s :: rest => by
    simp [goodStmtListB, goodStmtListB_iff rest]

/-- The joint parser-output invariant at a given fuel. -/
def ParserGood (n : Nat) : Prop :=
  (∀ st r st', parseLoop n st = (.ok r, st') → ∀ s ∈ r, goodStmtB s = true)
  ∧ (∀ st s st', parse_statement n st = (.ok (some s), st') → goodStmtB s = true)
  ∧ (∀ st s st', exprStatementTail n st = (.ok (some s), st') → goodStmtB s = true)
  ∧ (∀ st s st', parse_variable_declaration n st = (.ok s, st') → goodStmtB s = true)
  ∧ (∀ st s st', parse_function_declaration n st = (.ok s, st') → goodStmtB s = true)
  ∧ (∀ st r st', funcBodyLoop n st = (.ok r, st') → ∀ s ∈ r, goodStmtB s = true)
  ∧ (∀ st e st', parse_expression n st = (.ok e, st') → goodExprB e = true)
  ∧ (∀ st e st', parse_assignment n st = (.ok e, st') → goodExprB e = true)
  ∧ (∀ st e st', parse_logical_or n st = (.ok e, st') → goodExprB e = true)
  ∧ (∀ e st e' st', goodExprB e = true → orLoop n e st = (.ok e', st') → goodExprB e' = true)
  ∧ (∀ st e st', parse_logical_and n st = (.ok e, st') → goodExprB e = true)
  ∧ (∀ e st e' st', goodExprB e = true → andLoop n e st = (.ok e', st') → goodExprB e' = true)
  ∧ (∀ st e st', parse_equality n st = (.ok e, st') → goodExprB e = true)
  ∧ (∀ e st e' st', goodExprB e = true → eqLoop n e st = (.ok e', st') → goodExprB e' = true)
  ∧ (∀ st e st', parse_comparison n st = (.ok e, st') → goodExprB e = true)
  ∧ (∀ e st e' st', goodExprB e = true → cmpLoop n e st = (.ok e', st') → goodExprB e' = true)
  ∧ (∀ st e st', parse_term n st = (.ok e, st') → goodExprB e = true)
  ∧ (∀ e st e' st', goodExprB e = true → termLoop n e st = (.ok e', st') → goodExprB e' = true)
  ∧ (∀ st e st', parse_factor n st = (.ok e, st') → goodExprB e = true)
  ∧ (∀ e st e' st', goodExprB e = true → factorLoop n e st = (.ok e', st') → goodExprB e' = true)
  ∧ (∀ st e st', parse_unary n st = (.ok e, st') → goodExprB e = true)
  ∧ (∀ st e st', parse_primary n st = (.ok e, st') → goodExprB e = true)
  ∧ (∀ st e st', primaryRest n st = (.ok e, st') → goodExprB e = true)

theorem parserGood_zero : ParserGood 0 := by
  refine ⟨?_, ?_, ?_, ?_, ?_, ?_, ?_, ?_, ?_, ?_, ?_, ?_, ?_, ?_, ?_, ?_, ?_, ?_, ?_, ?_,
    ?_, ?_, ?_⟩ <;> (intros; simp_all [parseLoop, parse_statement,
    exprStatementTail, parse_variable_declaration, parse_function_declaration, funcBodyLoop,
    parse_expression, parse_assignment, parse_logical_or, orLoop, parse_logical_and, andLoop,
    parse_equality, eqLoop, parse_comparison, cmpLoop, parse_term, termLoop, parse_factor,
    factorLoop, parse_unary, parse_primary, primaryRest])


set_option maxHeartbeats 2000000 in
theorem parserGood_succ (n : Nat) (ih : ParserGood n) : ParserGood (n + 1) := by
  obtain ⟨ihProg, ihStmt, ihTail, ihVar, ihFunc, ihBody, ihExpr, ihAssign, ihOr, ihOrL,
    ihAnd, ihAndL, ihEq, ihEqL, ihCmp, ihCmpL, ihTerm, ihTermL, ihFactor, ihFactorL,
    ihUnary, ihPrimary, ihPrest⟩ := ih
  have hPrest : ∀ st e st', primaryRest (n + 1) st = (.ok e, st') → goodExprB e = true := by
    intro st e st' h
    simp only [primaryRest] at h
    repeat' split at h
    all_goals try (simp at h)
    all_goals try (obtain ⟨rfl, rfl⟩ := h; simp [goodExprB])
    · obtain ⟨rfl, rfl⟩ := h
      exact ihExpr _ _ _ (by assumption)
  have hPrimary : ∀ st e st', parse_primary (n + 1) st = (.ok e, st') → goodExprB e = true := by
    intro st e st' h
    simp only [parse_primary] at h
    repeat' split at h
    all_goals try (simp at h)
    all_goals try (obtain ⟨rfl, rfl⟩ := h; simp [goodExprB])
    all_goals exact ihPrest _ _ _ h
  have hUnary : ∀ st e st', parse_unary (n + 1) st = (.ok e, st') → goodExprB e = true := by
    intro st e st' h
    simp only [parse_unary] at h
    repeat' split at h
    all_goals try (simp at h)
    · obtain ⟨rfl, rfl⟩ := h
      simp only [goodExprB]
      exact ihUnary _ _ _ (by assumption)
    · exact ihPrimary _ _ _ h
  have hFactorL : ∀ e st e' st', goodExprB e = true → factorLoop (n + 1) e st = (.ok e', st') →
      goodExprB e' = true := by
    intro e st e' st' he h
    simp only [factorLoop] at h
    repeat' split at h
    all_goals try (simp at h)
    all_goals try (obtain ⟨rfl, rfl⟩ := h; exact he)
    · have hr := ihUnary _ _ _ (by assumption)
      exact ihFactorL _ _ _ _ (by simp [goodExprB, he, hr]) h
  have hFactor : ∀ st e st', parse_factor (n + 1) st = (.ok e, st') → goodExprB e = true := by
    intro st e st' h
    simp only [parse_factor] at h
    repeat' split at h
    all_goals try (simp at h)
    · exact ihFactorL _ _ _ _ (ihUnary _ _ _ (by assumption)) h
  have hTermL : ∀ e st e' st', goodExprB e = true → termLoop (n + 1) e st = (.ok e', st') →
      goodExprB e' = true := by
    intro e st e' st' he h
    simp only [termLoop] at h
    repeat' split at h
    all_goals try (simp at h)
    all_goals try (obtain ⟨rfl, rfl⟩ := h; exact he)
    · have hr := ihFactor _ _ _ (by assumption)
      exact ihTermL _ _ _ _ (by simp [goodExprB, he, hr]) h
  have hTerm : ∀ st e st', parse_term (n + 1) st = (.ok e, st') → goodExprB e = true := by
    intro st e st' h
    simp only [parse_term] at h
    repeat' split at h
    all_goals try (simp at h)
    · exact ihTermL _ _ _ _ (ihFactor _ _ _ (by assumption)) h
  have hCmpL : ∀ e st e' st', goodExprB e = true → cmpLoop (n + 1) e st = (.ok e', st') →
      goodExprB e' = true := by
    intro e st e' st' he h
    simp only [cmpLoop] at h
    repeat' split at h
    all_goals try (simp at h)
    all_goals try (obtain ⟨rfl, rfl⟩ := h; exact he)
    · have hr := ihTerm _ _ _ (by assumption)
      exact ihCmpL _ _ _ _ (by simp [goodExprB, he, hr]) h
  have hCmp : ∀ st e st', parse_comparison (n + 1) st = (.ok e, st') → goodExprB e = true := by
    intro st e st' h
    simp only [parse_comparison] at h
    repeat' split at h
    all_goals try (simp at h)
    · exact ihCmpL _ _ _ _ (ihTerm _ _ _ (by assumption)) h
  have hEqL : ∀ e st e' st', goodExprB e = true → eqLoop (n + 1) e st = (.ok e', st') →
      goodExprB e' = true := by
    intro e st e' st' he h
    simp only [eqLoop] at h
    repeat' split at h
    all_goals try (simp at h)
    all_goals try (obtain ⟨rfl, rfl⟩ := h; exact he)
    · have hr := ihCmp _ _ _ (by assumption)
      exact ihEqL _ _ _ _ (by simp [goodExprB, he, hr]) h
  have hEq : ∀ st e st', parse_equality (n + 1) st = (.ok e, st') → goodExprB e = true := by
    intro st e st' h
    simp only [parse_equality] at h
    repeat' split at h
    all_goals try (simp at h)
    · exact ihEqL _ _ _ _ (ihCmp _ _ _ (by assumption)) h
  have hAndL : ∀ e st e' st', goodExprB e = true → andLoop (n + 1) e st = (.ok e', st') →
      goodExprB e' = true := by
    intro e st e' st' he h
    simp only [andLoop] at h
    repeat' split at h
    all_goals try (simp at h)
    all_goals try (obtain ⟨rfl, rfl⟩ := h; exact he)
    · have hr := ihEq _ _ _ (by assumption)
      exact ihAndL _ _ _ _ (by simp [goodExprB, he, hr]) h
  have hAnd : ∀ st e st', parse_logical_and (n + 1) st = (.ok e, st') → goodExprB e = true := by
    intro st e st' h
    simp only [parse_logical_and] at h
    repeat' split at h
    all_goals try (simp at h)
    · exact ihAndL _ _ _ _ (ihEq _ _ _ (by assumption)) h
  have hOrL : ∀ e st e' st', goodExprB e = true → orLoop (n + 1) e st = (.ok e', st') →
      goodExprB e' = true := by
    intro e st e' st' he h
    simp only [orLoop] at h
    repeat' split at h
    all_goals try (simp at h)
    all_goals try (obtain ⟨rfl, rfl⟩ := h; exact he)
    · have hr := ihAnd _ _ _ (by assumption)
      exact ihOrL _ _ _ _ (by simp [goodExprB, he, hr]) h
  have hOr : ∀ st e st', parse_logical_or (n + 1) st = (.ok e, st') → goodExprB e = true := by
    intro st e st' h
    simp only [parse_logical_or] at h
    repeat' split at h
    all_goals try (simp at h)
    · exact ihOrL _ _ _ _ (ihAnd _ _ _ (by assumption)) h
  have hAssign : ∀ st e st', parse_assignment (n + 1) st = (.ok e, st') → goodExprB e = true := by
    intro st e st' h
    simp only [parse_assignment] at h
    repeat' split at h
    all_goals try (simp at h)
    · obtain ⟨rfl, rfl⟩ := h
      have h1 := ihOr _ _ _ (by assumption)
      have h2 := ihAssign _ _ _ (by assumption)
      simp [goodExprB, h1, h2]
    · obtain ⟨rfl, rfl⟩ := h
      exact ihOr _ _ _ (by assumption)
  have hExpr : ∀ st e st', parse_expression (n + 1) st = (.ok e, st') → goodExprB e = true := by
    intro st e st' h
    simp only [parse_expression] at h
    exact ihAssign _ _ _ h
  have hTail : ∀ st s st', exprStatementTail (n + 1) st = (.ok (some s), st') →
      goodStmtB s = true := by
    intro st s st' h
    simp only [exprStatementTail] at h
    repeat' split at h
    all_goals try (simp at h)
    · obtain ⟨rfl, rfl⟩ := h
      simp only [goodStmtB]
      exact ihExpr _ _ _ (by assumption)
  have hVar : ∀ st s st', parse_variable_declaration (n + 1) st = (.ok s, st') →
      goodStmtB s = true := by
    intro st s st' h
    simp only [parse_variable_declaration] at h
    repeat' split at h
    all_goals try (simp at h)
    · obtain ⟨rfl, rfl⟩ := h
      simp only [goodStmtB]
      exact ihExpr _ _ _ (by assumption)
    · obtain ⟨rfl, rfl⟩ := h
      simp [goodStmtB]
  have hBody : ∀ st r st', funcBodyLoop (n + 1) st = (.ok r, st') →
      ∀ s ∈ r, goodStmtB s = true := by
    intro st r st' h
    simp only [funcBodyLoop] at h
    repeat' split at h
    all_goals try (simp at h)
    all_goals try (obtain ⟨rfl, rfl⟩ := h; simp)
    all_goals try (exact ihBody _ _ _ h)
    · exact ⟨ihStmt _ _ _ (by assumption), fun a ha => ihBody _ _ _ (by assumption) a ha⟩
  have hFunc : ∀ st s st', parse_function_declaration (n + 1) st = (.ok s, st') →
      goodStmtB s = true := by
    intro st s st' h
    simp only [parse_function_declaration] at h
    repeat' split at h
    all_goals try (simp at h)
    all_goals
      obtain ⟨rfl, rfl⟩ := h
      simp only [goodStmtB]
      rw [goodStmtListB_iff]
      intro s2 hs2
      exact ihBody _ _ _ (by assumption) _ hs2
  have hStmt : ∀ st s st', parse_statement (n + 1) st = (.ok (some s), st') →
      goodStmtB s = true := by
    intro st s st' h
    simp only [parse_statement] at h
    repeat' split at h
    all_goals try (simp at h)
    all_goals try (obtain ⟨rfl, rfl⟩ := h)
    all_goals try (exact ihVar _ _ _ (by assumption))
    all_goals try (exact ihFunc _ _ _ (by assumption))
    all_goals try (exact ihTail _ _ _ (by assumption))
  have hProg : ∀ st r st', parseLoop (n + 1) st = (.ok r, st') →
      ∀ s ∈ r, goodStmtB s = true := by
    intro st r st' h
    simp only [parseLoop] at h
    repeat' split at h
    all_goals try (simp at h)
    all_goals try (obtain ⟨rfl, rfl⟩ := h; simp)
    all_goals try (exact ihProg _ _ _ h)
    · exact ⟨ihStmt _ _ _ (by assumption), fun a ha => ihProg _ _ _ (by assumption) a ha⟩
  exact ⟨hProg, hStmt, hTail, hVar, hFunc, hBody, hExpr, hAssign, hOr, hOrL, hAnd, hAndL,
    hEq, hEqL, hCmp, hCmpL, hTerm, hTermL, hFactor, hFactorL, hUnary, hPrimary, hPrest⟩


theorem parserGood : ∀ n, ParserGood n
  | 0 => parserGood_zero
  | n + 1 => parserGood_succ n (parserGood n)

/-- Claim C2: every statement in the body of a `Program` returned by the
parser satisfies `goodStmtB` — its kind is `VariableDeclaration`,
`FunctionDeclaration` or `ExpressionStatement` (recursively through
function bodies), and every expression it contains is a `Literal`,
`Identifier`, `BinaryExpression`, `UnaryExpression` or
`AssignmentExpression`; in particular no `CallExpression`, `IfStatement`,
`WhileStatement`, `ReturnStatement`, `BreakStatement` or
`ContinueStatement` is ever produced, so the evaluator handlers for those
kinds cannot be reached from parser output. -/
theorem claim_C2_parser_output (fuel : Nat) (toks : List Token) (prog : Program)
    (st' : PState) (h : parse fuel ⟨toks, 0⟩ = (.ok prog, st')) :
    ∀ s ∈ prog.body, goodStmtB s = true := by
  rcases hl : parseLoop fuel ⟨toks, 0⟩ with ⟨r, st1⟩
  simp only [parse, hl] at h
  cases r with
  | ok stmts =>
    simp only [Prod.mk.injEq, PRes.ok.injEq] at h
    obtain ⟨rfl, rfl⟩ := h
    exact (parserGood fuel).1 _ _ _ hl
  | err e => simp at h
  | nofuel => simp at h

/-- Witness for claim C2 at a concrete parse of `var x = 1 + y`. -/
theorem claim_C2_witness :
    parse 30 ⟨varToks, 0⟩ =
      (.ok ⟨[.varDecl "x" (some (.binary (.literal (.lint 1) "1") "+" (.ident "y")))]⟩,
       ⟨varToks, 6⟩)
    ∧ goodStmtB (.varDecl "x" (some (.binary (.literal (.lint 1) "1") "+" (.ident "y")))) = true := by
  refine ⟨rfl, ?_⟩
  have h := claim_C2_parser_output 30 varToks
    ⟨[.varDecl "x" (some (.binary (.literal (.lint 1) "1") "+" (.ident "y")))]⟩
    ⟨varToks, 6⟩ rfl
  exact h _ (by simp)

end NexusVeil
